import Mathlib

/-!
Verification of the tick-simulation core of a falling-block battle game
(`gameplay.rs`): the `Game` per-tick state machine, its `lock` and
`deal_garbage` helpers, the `Battle` orchestrator, and the `Controller`
wire format.

The board/stack, piece geometry and RNG are external collaborators of the
file under study; they are embedded as an abstract interface (`Ext`)
whose operations mirror the calls made by `gameplay.rs`.  The one piece of
collaborator state the simulation manipulates with visible structure is the
next-piece queue, which is modelled from the spec as a FIFO list.
All other definitions are direct translations of the Rust source.
-/

namespace LibTetris

/-- The seven button states of one tick of input (`Controller` in the source). -/
structure Controller where
  left : Bool
  right : Bool
  rotate_right : Bool
  rotate_left : Bool
  soft_drop : Bool
  hard_drop : Bool
  hold : Bool
deriving DecidableEq, Repr

/-- Rust `Default::default()` for `Controller`: every button released. -/
def Controller.default : Controller :=
  ⟨false, false, false, false, false, false, false⟩

/-- Static timing parameters (`GameConfig` in the source); units are ticks,
gravity is measured in 1/100 of a tick. -/
structure GameConfig where
  spawn_delay : Nat
  line_clear_delay : Nat
  delayed_auto_shift : Nat
  auto_repeat_rate : Nat
  soft_drop_speed : Nat
  gravity : Int
  next_queue_size : Nat
  margin_time : Option Nat
  max_garbage_add : Nat
deriving DecidableEq, Repr

/-- Modelled from the spec (§6): the result of `Board::lock_piece`, with the
three fields `gameplay.rs` consumes: `cleared_lines`, `locked_out`,
`garbage_sent`. -/
structure LockResult where
  cleared_lines : List Nat
  locked_out : Bool
  garbage_sent : Nat
deriving DecidableEq, Repr

/-- The `Event` enum emitted each tick, parametrised by the abstract piece
position type `P` and piece kind type `K`. -/
inductive Event (P K : Type) where
  | PieceSpawned (new_in_queue : K)
  | SpawnDelayStart
  | PieceMoved
  | PieceRotated
  | PieceTSpined
  | PieceHeld (k : K)
  | StackTouched
  | SoftDropped
  | PieceFalling (piece ghost : P)
  | EndOfLineClearDelay
  | PiecePlaced (piece : P) (locked : LockResult) (hard_drop_distance : Option Int)
  | GarbageSent (amt : Nat)
  | GarbageAdded (cols : List Nat)
  | GameOver
deriving DecidableEq, Repr

/-- Controller wire format, `impl Serialize for Controller`: one byte,
bit 0 unused, bits 1-7 are left, right, rotate_left (ccw), rotate_right (cw),
hold, soft_drop, hard_drop. -/
def Controller.serialize (c : Controller) : Nat :=
  c.left.toNat <<< 1 |||
  c.right.toNat <<< 2 |||
  c.rotate_left.toNat <<< 3 |||
  c.rotate_right.toNat <<< 4 |||
  c.hold.toNat <<< 5 |||
  c.soft_drop.toNat <<< 6 |||
  c.hard_drop.toNat <<< 7

/-- Controller wire format, `impl Deserialize for Controller` (`visit_u64`). -/
def Controller.deserialize (v : Nat) : Controller where
  left := (v >>> 1) &&& 1 != 0
  right := (v >>> 2) &&& 1 != 0
  rotate_left := (v >>> 3) &&& 1 != 0
  rotate_right := (v >>> 4) &&& 1 != 0
  hold := (v >>> 5) &&& 1 != 0
  soft_drop := (v >>> 6) &&& 1 != 0
  hard_drop := (v >>> 7) &&& 1 != 0

variable {B P K R M S : Type}

/-- Modelled from the spec (§6): the abstract collaborator interface consumed
by `gameplay.rs` — board stack operations, `FallingPiece` operations and the
two RNG primitives used for garbage columns (`gen_range(0, 10)` and
`gen_bool(1.0/3.0)`).  `B` is the board stack, `P` a falling-piece position,
`K` a piece kind, `R` an RNG state.  Piece operations that mutate in Rust and
return a success flag are modelled as `Option P` (failure leaves the field
unchanged at each call site, exactly as in the source). -/
structure Ext (B P K R : Type) where
  generate_next_piece : B → R → K × R
  spawn : K → B → Option P
  on_stack : B → P → Bool
  hold : B → K → Option K × B
  lock_piece : B → P → LockResult × B
  add_garbage : B → Nat → B × Bool
  cw : B → P → Option P
  ccw : B → P → Option P
  shift : B → P → Int → Int → Option P
  sonic_drop : B → P → P
  min_y : P → Int
  piece_y : P → Int
  kind : P → K
  tspin : P → Bool
  genRange10 : R → Nat × R
  genBool3 : R → Bool × R

/-- Modelled from the spec (§6): the board as seen by `gameplay.rs` — the
next-piece queue (`add_next_piece` / `advance_queue`) as a FIFO list plus the
abstract remainder `stack`. -/
structure GBoard (B K : Type) where
  queue : List K
  stack : B
deriving DecidableEq

/-- Modelled from the spec (§6): `Board::add_next_piece` appends to the queue. -/
def GBoard.add_next_piece (b : GBoard B K) (k : K) : GBoard B K :=
  { b with queue := b.queue ++ [k] }

/-- Modelled from the spec (§6): `Board::advance_queue` pops the front of the
queue, returning `none` when it is empty (the `unwrap` panic case in the
source). -/
def GBoard.advance_queue (b : GBoard B K) : Option (K × GBoard B K) :=
  match b.queue with
  | [] => none
  | k :: rest => some (k, { b with queue := rest })

/-- `FallingState` from the source. -/
structure FallingState (P : Type) where
  piece : P
  lowest_y : Int
  rotation_move_count : Nat
  gravity : Int
  lock_delay : Nat
  soft_drop_delay : Nat
deriving DecidableEq, Repr

/-- `GameState` from the source. -/
inductive GameState (P : Type) where
  | SpawnDelay (n : Nat)
  | LineClearDelay (n : Nat)
  | Falling (f : FallingState P)
  | GameOver
deriving DecidableEq, Repr

/-- Whether a `GameState` is the line-clear-delay variant. -/
def GameState.isLCD : GameState P → Bool
  | GameState.LineClearDelay _ => true
  | _ => false

/-- The `Game` struct from the source. -/
structure Game (B P K : Type) where
  board : GBoard B K
  state : GameState P
  config : GameConfig
  did_hold : Bool
  prev : Controller
  used : Controller
  das_delay : Nat
  garbage_queue : Nat
  attacking : Nat
deriving DecidableEq

/-- `fn update_input` from the source: releasing clears the used flag,
a fresh press sets it, otherwise it is left alone. -/
def update_input (used prev current : Bool) : Bool :=
  if !current then false
  else if !prev then true
  else used

/-- Lines 86-114 of the source: per-button edge detection followed by the
DAS/ARR block.  Returns the new `used` snapshot and the new DAS countdown
(`prev` is then set to `current` by the caller, as in line 116). -/
def inputPhase (cfg : GameConfig) (prev used current : Controller) (das : Nat) :
    Controller × Nat :=
  let u : Controller :=
    { left := update_input used.left prev.left current.left
      right := update_input used.right prev.right current.right
      rotate_right := update_input used.rotate_right prev.rotate_right current.rotate_right
      rotate_left := update_input used.rotate_left prev.rotate_left current.rotate_left
      soft_drop := current.soft_drop
      hard_drop := !prev.hard_drop && current.hard_drop
      hold := update_input used.hold prev.hold current.hold }
  if current.left != current.right && prev.left == current.left then
    if u.left || u.right then
      (u, if cfg.auto_repeat_rate < das then das - 1 else das)
    else if das == 0 then
      ({ u with left := current.left, right := current.right }, cfg.auto_repeat_rate)
    else
      (u, das - 1)
  else
    (u, cfg.delayed_auto_shift)

/-- The `while falling.gravity < 0` loop of lines 282-285, with explicit fuel.
Each iteration adds `G` (= `config.gravity`) to the accumulator and shifts the
piece down one cell (a failed shift leaves the piece in place, as in the
source, where the return value of `shift` is ignored here).  When `G ≥ 1` the
fuel supplied by `gravityPhase` always suffices; for `G ≤ 0` the Rust loop
diverges and the embedding merely truncates. -/
def gravityLoop (ext : Ext B P K R) (b : B) (G : Int) : Nat → Int → P → Int × P
  | 0, g, p => (g, p)
  | fuel+1, g, p =>
    if g < 0 then
      gravityLoop ext b G fuel (g + G)
        (match ext.shift b p 0 (-1) with | some q => q | none => p)
    else (g, p)

/-- Lines 279-285 of the source: the airborne gravity step — reset lock delay
to 30, subtract one tick (100 hundredths) from the accumulator, then run the
catch-up loop. -/
def gravityPhase (ext : Ext B P K R) (b : B) (cfg : GameConfig) (f : FallingState P) :
    FallingState P :=
  let g := f.gravity - 100
  let t := gravityLoop ext b cfg.gravity (g.natAbs + 1) g f.piece
  { f with lock_delay := 30, gravity := t.1, piece := t.2 }

/-- Lines 194-205 of the source: attempt a clockwise rotation when
`used.rotate_right` is set. -/
def rotateRightPhase (ext : Ext B P K R) (b : B) (u : Controller) (f : FallingState P) :
    Controller × FallingState P × List (Event P K) :=
  if u.rotate_right then
    match ext.cw b f.piece with
    | some p' =>
      ({ u with rotate_right := false },
       { f with piece := p', rotation_move_count := f.rotation_move_count + 1,
                lock_delay := 30 },
       [if ext.tspin p' then Event.PieceTSpined else Event.PieceRotated])
    | none => (u, f, [])
  else (u, f, [])

/-- Lines 206-217 of the source: attempt a counter-clockwise rotation when
`used.rotate_left` is set. -/
def rotateLeftPhase (ext : Ext B P K R) (b : B) (u : Controller) (f : FallingState P) :
    Controller × FallingState P × List (Event P K) :=
  if u.rotate_left then
    match ext.ccw b f.piece with
    | some p' =>
      ({ u with rotate_left := false },
       { f with piece := p', rotation_move_count := f.rotation_move_count + 1,
                lock_delay := 30 },
       [if ext.tspin p' then Event.PieceTSpined else Event.PieceRotated])
    | none => (u, f, [])
  else (u, f, [])

/-- Lines 220-227 of the source: attempt a one-cell shift left when
`used.left` is set. -/
def shiftLeftPhase (ext : Ext B P K R) (b : B) (u : Controller) (f : FallingState P) :
    Controller × FallingState P × List (Event P K) :=
  if u.left then
    match ext.shift b f.piece (-1) 0 with
    | some p' =>
      ({ u with left := false },
       { f with piece := p', rotation_move_count := f.rotation_move_count + 1,
                lock_delay := 30 },
       [Event.PieceMoved])
    | none => (u, f, [])
  else (u, f, [])

/-- Lines 228-235 of the source: attempt a one-cell shift right when
`used.right` is set. -/
def shiftRightPhase (ext : Ext B P K R) (b : B) (u : Controller) (f : FallingState P) :
    Controller × FallingState P × List (Event P K) :=
  if u.right then
    match ext.shift b f.piece 1 0 with
    | some p' =>
      ({ u with right := false },
       { f with piece := p', rotation_move_count := f.rotation_move_count + 1,
                lock_delay := 30 },
       [Event.PieceMoved])
    | none => (u, f, [])
  else (u, f, [])

/-- Lines 193-235 of the source: the rotate-then-shift phase of a Falling
tick, in source order (cw, ccw, left, right). -/
def movePhase (ext : Ext B P K R) (b : B) (u : Controller) (f : FallingState P) :
    Controller × FallingState P × List (Event P K) :=
  let s1 := rotateRightPhase ext b u f
  let s2 := rotateLeftPhase ext b s1.1 s1.2.1
  let s3 := shiftLeftPhase ext b s2.1 s2.2.1
  let s4 := shiftRightPhase ext b s3.1 s3.2.1
  (s4.1, s4.2.1, s1.2.2 ++ s2.2.2 ++ s3.2.2 ++ s4.2.2)

/-- Lines 237-242 of the source: move-reset bookkeeping — reaching a new
lowest row clears the move counter and records the new lowest row. -/
def lowestPhase (ext : Ext B P K R) (f : FallingState P) : FallingState P :=
  let low := ext.min_y f.piece
  if low < f.lowest_y then
    { f with rotation_move_count := 0, lowest_y := low }
  else f

/-- The loop of lines 359-365 in `deal_garbage`: for each of `n` rows,
resample the column when the 1-in-3 draw succeeds, record the column used and
add a garbage row to the stack, accumulating the death flag.  Returns
(columns used, rng, stack, dead). -/
def garbageLoop (ext : Ext B P K R) : Nat → R → Nat → B → Bool → List Nat × R × B × Bool
  | 0, r, _, b, dead => ([], r, b, dead)
  | n+1, r, col, b, dead =>
    let t1 := ext.genBool3 r
    let t2 := if t1.1 then ext.genRange10 t1.2 else (col, t1.2)
    let t3 := ext.add_garbage b t2.1
    let rest := garbageLoop ext n t2.2 t2.1 t3.1 (dead || t3.2)
    (t2.1 :: rest.1, rest.2)

/-- `fn deal_garbage` (lines 347-376): symmetric cancellation of outgoing
attack against queued garbage, then either injection of up to
`max_garbage_add` rows or emission of a `GarbageSent` event. -/
def dealGarbage (ext : Ext B P K R) (g : Game B P K) (r : R) :
    Game B P K × R × List (Event P K) :=
  let g1 : Game B P K :=
    if g.garbage_queue < g.attacking then
      { g with attacking := g.attacking - g.garbage_queue, garbage_queue := 0 }
    else
      { g with attacking := 0, garbage_queue := g.garbage_queue - g.attacking }
  if 0 < g1.garbage_queue then
    let c0 := ext.genRange10 r
    let n := min g1.garbage_queue g.config.max_garbage_add
    let gl := garbageLoop ext n c0.2 c0.1 g1.board.stack false
    let g2 : Game B P K :=
      { g1 with garbage_queue := g1.garbage_queue - n,
                board := { g1.board with stack := gl.2.2.1 } }
    if gl.2.2.2 then
      ({ g2 with state := GameState.GameOver }, gl.2.1,
       [Event.GarbageAdded gl.1, Event.GameOver])
    else
      (g2, gl.2.1, [Event.GarbageAdded gl.1])
  else if 0 < g1.attacking then
    ({ g1 with attacking := 0 }, r, [Event.GarbageSent g1.attacking])
  else
    (g1, r, [])

/-- `fn lock` (lines 319-345): clear the hold flag, commit the piece, emit
`PiecePlaced`, then branch on top-out / no lines / lines cleared. -/
def lockFn (ext : Ext B P K R) (g : Game B P K) (f : FallingState P) (dist : Option Int)
    (r : R) : Game B P K × R × List (Event P K) :=
  let lp := ext.lock_piece g.board.stack f.piece
  let locked := lp.1
  let g1 : Game B P K := { g with did_hold := false, board := { g.board with stack := lp.2 } }
  let e0 : List (Event P K) := [Event.PiecePlaced f.piece locked dist]
  if locked.locked_out then
    ({ g1 with state := GameState.GameOver }, r, e0 ++ [Event.GameOver])
  else if locked.cleared_lines.isEmpty then
    let d := dealGarbage ext { g1 with state := GameState.SpawnDelay g.config.spawn_delay } r
    (d.1, d.2.1, e0 ++ d.2.2)
  else
    ({ g1 with attacking := g1.attacking + locked.garbage_sent,
               state := GameState.LineClearDelay g.config.line_clear_delay }, r, e0)

/-- Lines 162-315 of the source: the body of the `GameState::Falling` branch
of `Game::update`, after the input phase has stored the tick's `used`
snapshot into the game. -/
def fallingTick (ext : Ext B P K R) (g : Game B P K) (f : FallingState P) (r : R) :
    Game B P K × R × List (Event P K) :=
  let u := g.used
  let b := g.board.stack
  let was_on_stack := ext.on_stack b f.piece
  if !g.did_hold && u.hold then
    let e0 : List (Event P K) := [Event.PieceHeld (ext.kind f.piece)]
    let h := ext.hold b (ext.kind f.piece)
    match h.1 with
    | some k =>
      match ext.spawn k h.2 with
      | some spawned =>
        ({ g with did_hold := true,
                  board := { g.board with stack := h.2 },
                  state := GameState.Falling
                    { piece := spawned, lowest_y := ext.min_y spawned,
                      rotation_move_count := 0, gravity := g.config.gravity,
                      lock_delay := 30, soft_drop_delay := 0 } },
         r, e0 ++ [Event.PieceFalling spawned (ext.sonic_drop h.2 spawned)])
      | none =>
        ({ g with did_hold := true, board := { g.board with stack := h.2 },
                  state := GameState.GameOver }, r, e0 ++ [Event.GameOver])
    | none =>
      ({ g with did_hold := true, board := { g.board with stack := h.2 },
                state := GameState.SpawnDelay g.config.spawn_delay }, r, e0)
  else
    let m := movePhase ext b u f
    let u4 := m.1
    let evs := m.2.2
    let f5 := lowestPhase ext m.2.1
    if 15 ≤ f5.rotation_move_count ∧ f5.lowest_y ≤ ext.min_y (ext.sonic_drop b f5.piece) then
      let l := lockFn ext { g with used := u4 } f5 none r
      (l.1, l.2.1, evs ++ l.2.2)
    else if u4.hard_drop then
      let p' := ext.sonic_drop b f5.piece
      let dist := ext.piece_y f5.piece - ext.piece_y p'
      let l := lockFn ext { g with used := u4 } { f5 with piece := p' } (some dist) r
      (l.1, l.2.1, evs ++ l.2.2)
    else if ext.on_stack b f5.piece then
      let e1 : List (Event P K) := if was_on_stack then [] else [Event.StackTouched]
      let f6 : FallingState P :=
        { f5 with lock_delay := f5.lock_delay - 1, gravity := g.config.gravity }
      if f6.lock_delay == 0 then
        let l := lockFn ext { g with used := u4 } f6 none r
        (l.1, l.2.1, evs ++ e1 ++ l.2.2)
      else
        ({ g with used := u4, state := GameState.Falling f6 }, r,
         evs ++ e1 ++ [Event.PieceFalling f6.piece (ext.sonic_drop b f6.piece)])
    else
      let f6 := gravityPhase ext b g.config f5
      if ext.on_stack b f6.piece then
        ({ g with used := u4, state := GameState.Falling f6 }, r,
         evs ++ [Event.StackTouched, Event.PieceFalling f6.piece (ext.sonic_drop b f6.piece)])
      else if (g.config.soft_drop_speed : Int) * 100 < g.config.gravity then
        if u4.soft_drop then
          if f6.soft_drop_delay == 0 then
            let p' := match ext.shift b f6.piece 0 (-1) with | some q => q | none => f6.piece
            let f7 : FallingState P :=
              { f6 with piece := p', soft_drop_delay := g.config.soft_drop_speed,
                        gravity := g.config.gravity }
            let e2 : List (Event P K) :=
              [Event.PieceMoved] ++
              (if ext.on_stack b p' then [Event.StackTouched] else []) ++
              [Event.SoftDropped]
            ({ g with used := u4, state := GameState.Falling f7 }, r,
             evs ++ e2 ++ [Event.PieceFalling f7.piece (ext.sonic_drop b f7.piece)])
          else
            let f7 : FallingState P := { f6 with soft_drop_delay := f6.soft_drop_delay - 1 }
            ({ g with used := u4, state := GameState.Falling f7 }, r,
             evs ++ [Event.PieceFalling f7.piece (ext.sonic_drop b f7.piece)])
        else
          let f7 : FallingState P := { f6 with soft_drop_delay := 0 }
          ({ g with used := u4, state := GameState.Falling f7 }, r,
           evs ++ [Event.PieceFalling f7.piece (ext.sonic_drop b f7.piece)])
      else
        ({ g with used := u4, state := GameState.Falling f6 }, r,
         evs ++ [Event.PieceFalling f6.piece (ext.sonic_drop b f6.piece)])

/-- `fn update` (lines 85-317): the full per-tick state machine.  Returns
`none` exactly when the source would panic on `advance_queue().unwrap()`
with an empty queue. -/
def gameUpdate (ext : Ext B P K R) (g0 : Game B P K) (current : Controller) (r : R) :
    Option (Game B P K × R × List (Event P K)) :=
  let ip := inputPhase g0.config g0.prev g0.used current g0.das_delay
  let g : Game B P K := { g0 with used := ip.1, das_delay := ip.2, prev := current }
  match g.state with
  | GameState.SpawnDelay 0 =>
    match g.board.advance_queue with
    | none => none
    | some nq =>
      let np := ext.generate_next_piece nq.2.stack r
      let board2 := nq.2.add_next_piece np.1
      match ext.spawn nq.1 board2.stack with
      | some spawned =>
        some ({ g with board := board2,
                       state := GameState.Falling
                         { piece := spawned, lowest_y := ext.min_y spawned,
                           rotation_move_count := 0, gravity := g.config.gravity,
                           lock_delay := 30, soft_drop_delay := 0 } },
              np.2,
              [Event.PieceSpawned np.1,
               Event.PieceFalling spawned (ext.sonic_drop board2.stack spawned)])
      | none =>
        some ({ g with board := board2, state := GameState.GameOver }, np.2,
              [Event.GameOver])
  | GameState.SpawnDelay (n+1) =>
    some ({ g with state := GameState.SpawnDelay n }, r,
          if n + 1 == g.config.spawn_delay then [Event.SpawnDelayStart] else [])
  | GameState.LineClearDelay 0 =>
    let d := dealGarbage ext { g with state := GameState.SpawnDelay g.config.spawn_delay } r
    some (d.1, d.2.1, Event.EndOfLineClearDelay :: d.2.2)
  | GameState.LineClearDelay (n+1) =>
    some ({ g with state := GameState.LineClearDelay n }, r, [])
  | GameState.GameOver => some (g, r, [Event.GameOver])
  | GameState.Falling f => some (fallingTick ext g f r)

/-- The queue-filling loop of `Game::new` (lines 70-72). -/
def fillQueue (ext : Ext B P K R) : Nat → GBoard B K → R → GBoard B K × R
  | 0, b, r => (b, r)
  | n+1, b, r =>
    let t := ext.generate_next_piece b.stack r
    fillQueue ext n (b.add_next_piece t.1) t.2

/-- `Game::new` (lines 68-83); `b0` stands for `Board::new()`. -/
def Game.new (ext : Ext B P K R) (config : GameConfig) (b0 : B) (rng : R) :
    Game B P K × R :=
  let br := fillQueue ext config.next_queue_size { queue := [], stack := b0 } rng
  ({ board := br.1, state := GameState.SpawnDelay config.spawn_delay, config := config,
     did_hold := false, prev := Controller.default, used := Controller.default,
     das_delay := config.delayed_auto_shift, garbage_queue := 0, attacking := 0 }, br.2)

/-- Drive a `Game` through a list of ticks; each step supplies the tick's
controller and the amount of garbage the orchestrator adds to the queue after
the tick (0 outside a battle). -/
def gameSteps (ext : Ext B P K R) :
    Game B P K → R → List (Controller × Nat) → Option (Game B P K × R)
  | g, r, [] => some (g, r)
  | g, r, s :: rest =>
    match gameUpdate ext g s.1 r with
    | none => none
    | some t =>
      gameSteps ext { t.1 with garbage_queue := t.1.garbage_queue + s.2 } t.2.1 rest

/-- A complete run: `Game::new` followed by a list of ticks. -/
def gameRun (ext : Ext B P K R) (cfg : GameConfig) (b0 : B) (r : R)
    (ins : List (Controller × Nat)) : Option (Game B P K × R) :=
  gameSteps ext (Game.new ext cfg b0 r).1 (Game.new ext cfg b0 r).2 ins

/-- The attack-multiplier operations of `Battle`, kept abstract (`f32` in the
source): the initial value 1.0, the `+= 0.5` margin-time bump, and the
`(amt as f32 * multiplier) as u32` scaling. -/
structure MultOps (M : Type) where
  one : M
  addHalf : M → M
  scale : M → Nat → Nat

/-- The `Battle` struct from the source (replay auxiliary `Info` entries are
always `None` in `Battle::update` and are omitted). -/
structure BattleS (B P K R M : Type) where
  player_1 : Game B P K
  player_2 : Game B P K
  p1_rng : R
  p2_rng : R
  time : Nat
  multiplier : M
  margin_time : Option Nat
  replay : List (Controller × Controller)
deriving DecidableEq

/-- Total garbage routed to the opponent from one player's events: the sum of
`scale multiplier amt` over the `GarbageSent` events (lines 434-443). -/
def garbageFromEvents (mo : MultOps M) (m : M) : List (Event P K) → Nat
  | [] => 0
  | Event.GarbageSent amt :: rest => mo.scale m amt + garbageFromEvents mo m rest
  | _ :: rest => garbageFromEvents mo m rest

/-- `Battle::new` (lines 399-419); `fromSeed` stands for
`Pcg64Mcg::from_seed`. -/
def battleNew (ext : Ext B P K R) (mo : MultOps M) (fromSeed : S → R) (b0 : B)
    (cfg : GameConfig) (s1 s2 : S) : BattleS B P K R M :=
  let p1 := Game.new ext cfg b0 (fromSeed s1)
  let p2 := Game.new ext cfg b0 (fromSeed s2)
  { player_1 := p1.1, player_2 := p2.1, p1_rng := p1.2, p2_rng := p2.2,
    time := 0, multiplier := mo.one, margin_time := cfg.margin_time, replay := [] }

/-- `Battle::update` (lines 421-459): advance time, bump the multiplier at
margin time, log the inputs, update both players, then cross-route
`GarbageSent` amounts.  The returned tuple is (p1 events, p2 events,
p1 garbage queue, p2 garbage queue, time, multiplier). -/
def battleUpdate (ext : Ext B P K R) (mo : MultOps M) (b : BattleS B P K R M)
    (c1 c2 : Controller) :
    Option (BattleS B P K R M ×
            (List (Event P K) × List (Event P K) × Nat × Nat × Nat × M)) :=
  let time' := b.time + 1
  let mult' :=
    match b.margin_time with
    | some m => if m ≤ time' && (time' - m) % 1800 == 0 then mo.addHalf b.multiplier
                else b.multiplier
    | none => b.multiplier
  let replay' := b.replay ++ [(c1, c2)]
  match gameUpdate ext b.player_1 c1 b.p1_rng with
  | none => none
  | some t1 =>
    match gameUpdate ext b.player_2 c2 b.p2_rng with
    | none => none
    | some t2 =>
      let p2' := { t2.1 with garbage_queue := t2.1.garbage_queue + garbageFromEvents mo mult' t1.2.2 }
      let p1' := { t1.1 with garbage_queue := t1.1.garbage_queue + garbageFromEvents mo mult' t2.2.2 }
      some ({ player_1 := p1', player_2 := p2', p1_rng := t1.2.1, p2_rng := t2.2.1,
              time := time', multiplier := mult', margin_time := b.margin_time,
              replay := replay' },
            (t1.2.2, t2.2.2, p1'.garbage_queue, p2'.garbage_queue, time', mult'))

/-- Drive a `Battle` through a fixed sequence of per-tick input pairs,
collecting every tick's outputs. -/
def battleSteps (ext : Ext B P K R) (mo : MultOps M) :
    BattleS B P K R M → List (Controller × Controller) →
    Option (BattleS B P K R M ×
            List (List (Event P K) × List (Event P K) × Nat × Nat × Nat × M))
  | b, [] => some (b, [])
  | b, c :: rest =>
    match battleUpdate ext mo b c.1 c.2 with
    | none => none
    | some t =>
      match battleSteps ext mo t.1 rest with
      | none => none
      | some u => some (u.1, t.2 :: u.2)

/-- The column chain generated by the garbage-injection loop: each recorded
column either repeats the current column (when the 1-in-3 draw fails) or is a
fresh `gen_range(0, 10)` draw (when it succeeds), with the RNG threaded in the
source's consumption order. -/
inductive ColChain (ext : Ext B P K R) : R → Nat → List Nat → Prop where
  | nil : ∀ r c, ColChain ext r c []
  | keep : ∀ r r1 c l, ext.genBool3 r = (false, r1) →
      ColChain ext r1 c l → ColChain ext r c (c :: l)
  | fresh : ∀ r r1 c c' r2 l, ext.genBool3 r = (true, r1) →
      ext.genRange10 r1 = (c', r2) →
      ColChain ext r2 c' l → ColChain ext r c (c' :: l)

/-- A minimal concrete instance of the collaborator interface over trivial
board, kind and RNG types, with `P := Nat` counting how many times the piece
has been shifted (used to observe gravity and garbage behaviour concretely). -/
def countExt : Ext Unit Nat Unit Unit where
  generate_next_piece := fun _ r => ((), r)
  spawn := fun _ _ => some 0
  on_stack := fun _ _ => false
  hold := fun _ _ => (none, ())
  lock_piece := fun _ _ => (⟨[], false, 0⟩, ())
  add_garbage := fun b _ => (b, false)
  cw := fun _ _ => none
  ccw := fun _ _ => none
  shift := fun _ p _ _ => some (p + 1)
  sonic_drop := fun _ p => p
  min_y := fun _ => 0
  piece_y := fun _ => 0
  kind := fun _ => ()
  tspin := fun _ => false
  genRange10 := fun r => (0, r)
  genBool3 := fun r => (false, r)

/-- A `Game` over `countExt`'s types in a given state with the given
outgoing-attack accumulator and garbage queue (used for concrete
`deal_garbage` scenarios). -/
def mkGameC (cfg : GameConfig) (att gq : Nat) : Game Unit Nat Unit where
  board := { queue := [], stack := () }
  state := GameState.SpawnDelay 0
  config := cfg
  did_hold := false
  prev := Controller.default
  used := Controller.default
  das_delay := 0
  garbage_queue := gq
  attacking := att

/-- The default configuration of the source (`impl Default for GameConfig`),
with `next_queue_size := 5`. -/
def defaultConfig : GameConfig where
  spawn_delay := 7
  line_clear_delay := 45
  delayed_auto_shift := 12
  auto_repeat_rate := 1
  soft_drop_speed := 1
  gravity := 4500
  next_queue_size := 5
  margin_time := some 18000
  max_garbage_add := 10

/-- A configuration whose only relevant field is `gravity := G` (used to
study the gravity phase in isolation). -/
def mkGravityCfg (G : Int) : GameConfig where
  spawn_delay := 0
  line_clear_delay := 0
  delayed_auto_shift := 0
  auto_repeat_rate := 0
  soft_drop_speed := 0
  gravity := G
  next_queue_size := 0
  margin_time := none
  max_garbage_add := 0

/-- One airborne, non-soft-dropping gravity tick on the accumulator-and-cells
state `(gravity, cells fallen)`: lines 279-285 of the source via
`gravityPhase`, with the piece instantiated as a fall counter. -/
def gravityTick (G : Int) (s : Int × Nat) : Int × Nat :=
  let f := gravityPhase countExt () (mkGravityCfg G)
    { piece := s.2, lowest_y := 0, rotation_move_count := 0, gravity := s.1,
      lock_delay := 30, soft_drop_delay := 0 }
  (f.gravity, f.piece)

/-- Iterated airborne gravity ticks starting from a fresh spawn (accumulator
initialised to `config.gravity`, as in lines 128 and 176 of the source). -/
def gravityRun (G : Int) : Nat → Int × Nat
  | 0 => (G, 0)
  | t+1 => gravityTick G (gravityRun G t)

/-- Cells fallen after `T` airborne ticks under gravity `G`. -/
def cellsAfter (G : Int) (T : Nat) : Nat := (gravityRun G T).2

/-- A concrete bottomless-board instance for the DAS/ARR scenario:
`P := Int × Int` is the piece position `(x, y)`, shifts always succeed,
the piece is never on the stack, and the sonic-drop projection always
descends (no lock ever happens). -/
def extC : Ext Unit (Int × Int) Unit Unit where
  generate_next_piece := fun _ r => ((), r)
  spawn := fun _ _ => some (4, 18)
  on_stack := fun _ _ => false
  hold := fun _ _ => (none, ())
  lock_piece := fun _ _ => (⟨[], false, 0⟩, ())
  add_garbage := fun b _ => (b, false)
  cw := fun _ _ => none
  ccw := fun _ _ => none
  shift := fun _ p dx dy => some (p.1 + dx, p.2 + dy)
  sonic_drop := fun _ p => (p.1, p.2 - 1000)
  min_y := fun p => p.2
  piece_y := fun p => p.2
  kind := fun _ => ()
  tspin := fun _ => false
  genRange10 := fun r => (0, r)
  genBool3 := fun r => (false, r)

/-- The DAS/ARR configuration of the claim: `delayed_auto_shift = 12`,
`auto_repeat_rate = 1` (the source defaults). -/
def cfgC : GameConfig where
  spawn_delay := 7
  line_clear_delay := 45
  delayed_auto_shift := 12
  auto_repeat_rate := 1
  soft_drop_speed := 1
  gravity := 45000
  next_queue_size := 1
  margin_time := none
  max_garbage_add := 10

/-- The controller held throughout the DAS scenario: left held, everything
else released. -/
def heldL : Controller := { Controller.default with left := true }

/-- The DAS scenario's starting state: a falling piece with the left button
already held from before (so marked not-used), DAS countdown full at 12 —
exactly the state reached one tick after pressing left in the Falling state
with an immediately successful shift. -/
def gC0 : Game Unit (Int × Int) Unit where
  board := { queue := [()], stack := () }
  state := GameState.Falling
    { piece := (4, 18), lowest_y := 18, rotation_move_count := 0, gravity := 45000,
      lock_delay := 30, soft_drop_delay := 0 }
  config := cfgC
  did_hold := false
  prev := heldL
  used := Controller.default
  das_delay := 12
  garbage_queue := 0
  attacking := 0

/-- The DAS scenario run: tick `k` of holding left continuously from `gC0`,
remembering the events of the last tick performed. -/
def c5Run : Nat → Option (Game Unit (Int × Int) Unit × Unit × List (Event (Int × Int) Unit))
  | 0 => some (gC0, (), [])
  | k+1 =>
    match c5Run k with
    | none => none
    | some t => gameUpdate extC t.1 heldL t.2.1

/-- Whether a left shift (a `PieceMoved` event) happened on tick `k` of the
DAS scenario. -/
def movedAt (k : Nat) : Bool :=
  match c5Run k with
  | some t => decide (Event.PieceMoved ∈ t.2.2)
  | none => false

/-- The DAS countdown value after tick `k` of the scenario (recurrence read
off lines 95-114 for the held-steady case). -/
def dasAfter : Nat → Nat
  | 0 => 12
  | k+1 => if dasAfter k = 0 then 1 else dasAfter k - 1

/-- The scenario invariant for the DAS run: configuration, hold flag, input
snapshots fixed; state falling with a non-negative gravity accumulator and a
sonic-drop projection that always descends below the recorded lowest row. -/
def C5Inv (g : Game Unit (Int × Int) Unit) : Prop :=
  g.config = cfgC ∧ g.did_hold = false ∧ g.prev = heldL ∧ g.used = Controller.default ∧
  ∃ f : FallingState (Int × Int), g.state = GameState.Falling f ∧
    0 ≤ f.gravity ∧ f.piece.2 - 1000 < f.lowest_y

/-- A concrete instance where every locked piece clears a line and sends 3
garbage, and the piece is always resting on the stack (used to reach a
line-clear-delay state with a nonzero attack accumulator). -/
def extL : Ext Unit Nat Unit Unit where
  generate_next_piece := fun _ r => ((), r)
  spawn := fun _ _ => some 0
  on_stack := fun _ _ => true
  hold := fun _ _ => (none, ())
  lock_piece := fun _ _ => (⟨[1], false, 3⟩, ())
  add_garbage := fun b _ => (b, false)
  cw := fun _ _ => none
  ccw := fun _ _ => none
  shift := fun _ p _ _ => some (p + 1)
  sonic_drop := fun _ p => p
  min_y := fun _ => 0
  piece_y := fun _ => 0
  kind := fun _ => ()
  tspin := fun _ => false
  genRange10 := fun r => (0, r)
  genBool3 := fun r => (false, r)

/-- Configuration for the `extL` run: no spawn delay, one queued piece. -/
def cfgL : GameConfig where
  spawn_delay := 0
  line_clear_delay := 45
  delayed_auto_shift := 12
  auto_repeat_rate := 1
  soft_drop_speed := 1
  gravity := 45000
  next_queue_size := 1
  margin_time := none
  max_garbage_add := 10

/-- 31 idle ticks: spawn on tick 1, then 30 ticks of lock delay, so the piece
locks (clearing a line and charging the attack accumulator) on tick 31. -/
def insL : List (Controller × Nat) := List.replicate 31 (Controller.default, 0)

/-- The `extL` run used to exhibit a reachable state with `attacking ≠ 0`. -/
def c9Run : Option (Game Unit Nat Unit × Unit) := gameRun extL cfgL () () insL

/-- A falling state whose move-reset counter has already reached 15 (for the
15-move lock-rule witness). -/
def fW6 : FallingState Nat where
  piece := 0
  lowest_y := 0
  rotation_move_count := 15
  gravity := 45000
  lock_delay := 30
  soft_drop_delay := 0

/-- A game hosting `fW6` with no buttons marked used. -/
def gW6 : Game Unit Nat Unit where
  board := { queue := [()], stack := () }
  state := GameState.Falling fW6
  config := cfgL
  did_hold := false
  prev := Controller.default
  used := Controller.default
  das_delay := 12
  garbage_queue := 0
  attacking := 0

/-- A controller snapshot with only hard drop marked used. -/
def cW7 : Controller := { Controller.default with hard_drop := true }

/-- A freshly spawned falling state (move counter 0) for the hard-drop
witness. -/
def fW7 : FallingState Nat where
  piece := 5
  lowest_y := 0
  rotation_move_count := 0
  gravity := 45000
  lock_delay := 30
  soft_drop_delay := 0

/-- A game hosting `fW7` with hard drop marked used this tick. -/
def gW7 : Game Unit Nat Unit where
  board := { queue := [()], stack := () }
  state := GameState.Falling fW7
  config := cfgL
  did_hold := false
  prev := Controller.default
  used := cW7
  das_delay := 12
  garbage_queue := 0
  attacking := 0

/-! ### Theorems -/

/-- C8: serializing a `Controller` to its packed byte and deserializing yields
the original, for every one of the 128 button combinations; the packing leaves
bit 0 unused and puts left, right, rotate_left (ccw), rotate_right (cw), hold,
soft_drop, hard_drop at bits 1-7, each bit set exactly when the button is
held, and the packed value fits in one byte. -/
theorem controller_roundtrip_bits (c : Controller) :
    Controller.deserialize (Controller.serialize c) = c ∧
    (Controller.serialize c).testBit 0 = false ∧
    (Controller.serialize c).testBit 1 = c.left ∧
    (Controller.serialize c).testBit 2 = c.right ∧
    (Controller.serialize c).testBit 3 = c.rotate_left ∧
    (Controller.serialize c).testBit 4 = c.rotate_right ∧
    (Controller.serialize c).testBit 5 = c.hold ∧
    (Controller.serialize c).testBit 6 = c.soft_drop ∧
    (Controller.serialize c).testBit 7 = c.hard_drop ∧
    Controller.serialize c < 256 := by
  obtain ⟨l, r, rr, rl, sd, hd, ho⟩ := c
  cases l <;> cases r <;> cases rr <;> cases rl <;> cases sd <;> cases hd <;> cases ho <;>
    decide

/-- C1: two independent runs of `Battle` — each constructed with
`Battle::new` from the same config and seeds and driven by `Battle::update`
on the same fixed per-tick input sequence — produce identical per-tick
outputs (event lists, garbage queues, time, multiplier) and identical final
states.  The simulation is a pure function of (config, seeds, inputs): every
effect of the source (both RNG streams, the multiplier, the replay log) is
explicit state threaded through `battleSteps`. -/
theorem battle_runs_deterministic (ext : Ext B P K R) (mo : MultOps M)
    (fromSeed : S → R) (b0 : B) (cfg : GameConfig) (s1 s2 : S)
    (ins : List (Controller × Controller)) :
    battleSteps ext mo (battleNew ext mo fromSeed b0 cfg s1 s2) ins =
      battleSteps ext mo (battleNew ext mo fromSeed b0 cfg s1 s2) ins := rfl

/-- C2 counterexample: with the source's default configuration
(`max_garbage_add = 10`), a `deal_garbage` call entered with `attacking = 2`
and `garbage_queue = 5` does NOT end with `garbage_queue = 3`: cancellation
leaves 3 queued rows, which are then immediately injected, leaving 0. -/
theorem deal_garbage_scenario_counterexample :
    (dealGarbage countExt (mkGameC defaultConfig 2 5) ()).1.garbage_queue ≠ 3 ∧
    (dealGarbage countExt (mkGameC defaultConfig 2 5) ()).1.garbage_queue = 0 := by
  decide

/-- C2 (amended): `deal_garbage` first cancels the outgoing-attack
accumulator against the queued incoming garbage symmetrically.  When the
attack exceeds the queue, the call ends with both counters zeroed and a
single `GarbageSent` event carrying the difference (so `attacking = 5`,
`garbage_queue = 3` yields `garbage_queue = 0` and `GarbageSent 2`).  When
the queue is at least the attack, no attack is sent and — because the call
then immediately injects `min (remaining, max_garbage_add)` rows — the final
queue is the post-cancellation remainder minus the amount injected (so
`attacking = 2`, `garbage_queue = 5` cancels to 3 queued rows and ends with
`3 - min 3 max_garbage_add` queued, which is 0 at the default
`max_garbage_add = 10`). -/
theorem deal_garbage_cancellation (ext : Ext B P K R) (g : Game B P K) (r : R) :
    (g.garbage_queue < g.attacking →
       dealGarbage ext g r =
         ({ g with attacking := 0, garbage_queue := 0 }, r,
          [Event.GarbageSent (g.attacking - g.garbage_queue)])) ∧
    (g.attacking ≤ g.garbage_queue →
       (dealGarbage ext g r).1.attacking = 0 ∧
       (dealGarbage ext g r).1.garbage_queue =
         (g.garbage_queue - g.attacking) -
           min (g.garbage_queue - g.attacking) g.config.max_garbage_add ∧
       ∀ a, Event.GarbageSent a ∉ (dealGarbage ext g r).2.2) := by
  constructor
  · intro h
    simp only [dealGarbage, if_pos h]
    have h0 : ¬ (0 : Nat) < 0 := by omega
    have h1 : 0 < g.attacking - g.garbage_queue := by omega
    simp [h0, h1]
  · intro h
    have h' : ¬ g.garbage_queue < g.attacking := by omega
    simp only [dealGarbage, if_neg h']
    by_cases hq : 0 < g.garbage_queue - g.attacking
    · simp only [if_pos hq]
      by_cases hd : (garbageLoop ext
          (min (g.garbage_queue - g.attacking) g.config.max_garbage_add)
          (ext.genRange10 r).2 (ext.genRange10 r).1 g.board.stack false).2.2.2
      · simp [hd]
      · simp [hd]
    · simp only [if_neg hq]
      have h2 : ¬ (0:Nat) < 0 := by omega
      have hq0 : g.garbage_queue - g.attacking = 0 := by omega
      simp [hq0]

/-- C2 witness: the two concrete scenarios of the amended claim, obtained by
instantiating `deal_garbage_cancellation` at `attacking = 5, garbage_queue = 3`
and at `attacking = 2, garbage_queue = 5` under the default configuration. -/
theorem deal_garbage_cancellation_witness :
    dealGarbage countExt (mkGameC defaultConfig 5 3) () =
      ({ mkGameC defaultConfig 5 3 with attacking := 0, garbage_queue := 0 }, (),
       [Event.GarbageSent 2]) ∧
    (dealGarbage countExt (mkGameC defaultConfig 2 5) ()).1.attacking = 0 ∧
    (dealGarbage countExt (mkGameC defaultConfig 2 5) ()).1.garbage_queue =
      (5 - 2) - min (5 - 2) defaultConfig.max_garbage_add ∧
    ∀ a, Event.GarbageSent a ∉ (dealGarbage countExt (mkGameC defaultConfig 2 5) ()).2.2 := by
  refine ⟨?_, ?_⟩
  · exact (deal_garbage_cancellation countExt (mkGameC defaultConfig 5 3) ()).1 (by decide)
  · exact (deal_garbage_cancellation countExt (mkGameC defaultConfig 2 5) ()).2 (by decide)

/-- The structure of the garbage-injection loop: the recorded columns form a
`ColChain` from the incoming RNG state and current column, there are exactly
`n` of them, and they stay in range 0-9 whenever the range draws do. -/
theorem garbageLoop_spec (ext : Ext B P K R) :
    ∀ (n : Nat) (r : R) (c : Nat) (b : B) (dead : Bool),
      ColChain ext r c (garbageLoop ext n r c b dead).1 ∧
      (garbageLoop ext n r c b dead).1.length = n ∧
      (c < 10 → (∀ s, (ext.genRange10 s).1 < 10) →
        ∀ x ∈ (garbageLoop ext n r c b dead).1, x < 10) := by
  intro n
  induction n with
  | zero =>
    intro r c b dead
    exact ⟨ColChain.nil r c, rfl, by intro _ _ x hx; simp [garbageLoop] at hx⟩
  | succ n ih =>
    intro r c b dead
    rcases h1 : ext.genBool3 r with ⟨flag, r1⟩
    cases flag with
    | false =>
      have hloop : (garbageLoop ext (n+1) r c b dead).1 =
          c :: (garbageLoop ext n r1 c (ext.add_garbage b c).1
                 (dead || (ext.add_garbage b c).2)).1 := by
        simp [garbageLoop, h1]
      obtain ⟨hch, hlen, hbd⟩ := ih r1 c (ext.add_garbage b c).1
        (dead || (ext.add_garbage b c).2)
      refine ⟨?_, ?_, ?_⟩
      · rw [hloop]; exact ColChain.keep r r1 c _ h1 hch
      · rw [hloop]; simp [hlen]
      · intro hc h10 x hx
        rw [hloop] at hx
        rcases List.mem_cons.mp hx with hx | hx
        · omega
        · exact hbd hc h10 x hx
    | true =>
      rcases h2 : ext.genRange10 r1 with ⟨c', r2⟩
      have hloop : (garbageLoop ext (n+1) r c b dead).1 =
          c' :: (garbageLoop ext n r2 c' (ext.add_garbage b c').1
                 (dead || (ext.add_garbage b c').2)).1 := by
        simp [garbageLoop, h1, h2]
      obtain ⟨hch, hlen, hbd⟩ := ih r2 c' (ext.add_garbage b c').1
        (dead || (ext.add_garbage b c').2)
      refine ⟨?_, ?_, ?_⟩
      · rw [hloop]; exact ColChain.fresh r r1 c c' r2 _ h1 h2 hch
      · rw [hloop]; simp [hlen]
      · intro _ h10 x hx
        rw [hloop] at hx
        rcases List.mem_cons.mp hx with hx | hx
        · have := h10 r1
          rw [h2] at this
          omega
        · refine hbd ?_ h10 x hx
          have := h10 r1
          rw [h2] at this
          exact this

/-- C3: when incoming garbage remains after cancellation, `deal_garbage`
injects exactly `min (remaining queue, max_garbage_add)` rows, decrements the
queue by exactly that amount, and emits a single `GarbageAdded` event listing
exactly the columns used in injection order; the column sequence is a chain
seeded by a fresh `gen_range(0, 10)` draw in which each row's column either
repeats its predecessor or is a fresh draw taken when the per-row 1-in-3
resample succeeds, and all columns are in 0-9 whenever the range primitive's
draws are. -/
theorem deal_garbage_injection (ext : Ext B P K R) (g : Game B P K) (r : R)
    (h : g.attacking < g.garbage_queue) :
    ∃ cols,
      ((dealGarbage ext g r).2.2 = [Event.GarbageAdded cols] ∨
       (dealGarbage ext g r).2.2 = [Event.GarbageAdded cols, Event.GameOver]) ∧
      cols.length = min (g.garbage_queue - g.attacking) g.config.max_garbage_add ∧
      (dealGarbage ext g r).1.garbage_queue =
        (g.garbage_queue - g.attacking) -
          min (g.garbage_queue - g.attacking) g.config.max_garbage_add ∧
      ColChain ext (ext.genRange10 r).2 (ext.genRange10 r).1 cols ∧
      ((∀ s, (ext.genRange10 s).1 < 10) → ∀ x ∈ cols, x < 10) := by
  have h' : ¬ g.garbage_queue < g.attacking := by omega
  have hq : 0 < g.garbage_queue - g.attacking := by omega
  obtain ⟨hch, hlen, hbd⟩ := garbageLoop_spec ext
    (min (g.garbage_queue - g.attacking) g.config.max_garbage_add)
    (ext.genRange10 r).2 (ext.genRange10 r).1 g.board.stack false
  refine ⟨(garbageLoop ext (min (g.garbage_queue - g.attacking) g.config.max_garbage_add)
    (ext.genRange10 r).2 (ext.genRange10 r).1 g.board.stack false).1, ?_, hlen, ?_, hch, ?_⟩
  · simp only [dealGarbage, if_neg h', if_pos hq]
    by_cases hd : (garbageLoop ext (min (g.garbage_queue - g.attacking)
        g.config.max_garbage_add) (ext.genRange10 r).2 (ext.genRange10 r).1
        g.board.stack false).2.2.2
    · right; simp [hd]
    · left; simp [hd]
  · simp only [dealGarbage, if_neg h', if_pos hq]
    by_cases hd : (garbageLoop ext (min (g.garbage_queue - g.attacking)
        g.config.max_garbage_add) (ext.genRange10 r).2 (ext.genRange10 r).1
        g.board.stack false).2.2.2
    · simp [hd]
    · simp [hd]
  · intro h10
    refine hbd ?_ h10
    have := h10 r
    omega

/-- C3 witness: with `attacking = 0`, `garbage_queue = 10` and the default
`max_garbage_add = 10`, instantiating `deal_garbage_injection` records exactly
`min 10 10 = 10` columns and empties the queue. -/
theorem deal_garbage_injection_witness :
    ∃ cols,
      ((dealGarbage countExt (mkGameC defaultConfig 0 10) ()).2.2 =
         [Event.GarbageAdded cols] ∨
       (dealGarbage countExt (mkGameC defaultConfig 0 10) ()).2.2 =
         [Event.GarbageAdded cols, Event.GameOver]) ∧
      cols.length = min ((mkGameC defaultConfig 0 10).garbage_queue -
          (mkGameC defaultConfig 0 10).attacking)
        (mkGameC defaultConfig 0 10).config.max_garbage_add ∧
      (dealGarbage countExt (mkGameC defaultConfig 0 10) ()).1.garbage_queue =
        ((mkGameC defaultConfig 0 10).garbage_queue -
            (mkGameC defaultConfig 0 10).attacking) -
          min ((mkGameC defaultConfig 0 10).garbage_queue -
              (mkGameC defaultConfig 0 10).attacking)
            (mkGameC defaultConfig 0 10).config.max_garbage_add ∧
      ColChain countExt (countExt.genRange10 ()).2 (countExt.genRange10 ()).1 cols ∧
      ((∀ s, (countExt.genRange10 s).1 < 10) → ∀ x ∈ cols, x < 10) :=
  deal_garbage_injection countExt (mkGameC defaultConfig 0 10) () (by decide)

/-- C4 counterexample: with `gravity = 450` an airborne piece has already
fallen 1 cell after 5 ticks and 4 cells after 22 ticks — the configured rate
is one cell per 4.5 ticks, not one cell per ~22 ticks as claimed (the claim
inverts the unit: `gravity` is hundredths of a tick per cell, not hundredths
of a cell per tick). -/
theorem gravity_rate_counterexample :
    cellsAfter 450 5 = 1 ∧ cellsAfter 450 22 = 4 := by decide

/-- The gravity catch-up loop does nothing when the accumulator is already
non-negative. -/
theorem gravityLoop_nonneg (ext : Ext B P K R) (b : B) (G : Int) (fuel : Nat) (g : Int)
    (p : P) (h : 0 ≤ g) : gravityLoop ext b G fuel g p = (g, p) := by
  cases fuel with
  | zero => rfl
  | succ n => simp [gravityLoop, show ¬ g < 0 by omega]

/-- Behaviour of the gravity catch-up loop over the fall-counting instance:
within sufficient fuel it adds `G` exactly `k` times and drops the piece `k`
cells, ending with the accumulator in `[0, G)` whenever it had to loop. -/
theorem gravityLoop_count (G : Int) (hG : 1 ≤ G) :
    ∀ (fuel : Nat) (g : Int) (c : Nat), (-g).toNat < fuel →
    ∃ k : Nat, gravityLoop countExt () G fuel g c = (g + G * k, c + k) ∧
      0 ≤ g + G * k ∧ (g < 0 → g + G * k < G) ∧ (0 ≤ g → k = 0) := by
  intro fuel
  induction fuel with
  | zero => intro g c h; omega
  | succ n ih =>
    intro g c h
    by_cases hg : g < 0
    · have hstep : gravityLoop countExt () G (n+1) g c = gravityLoop countExt () G n (g + G) (c + 1) := by
        simp [gravityLoop, hg, countExt]
      obtain ⟨k', hk', hpos, hbd, hz⟩ := ih (g + G) (c + 1) (by omega)
      refine ⟨k' + 1, ?_, ?_, ?_, ?_⟩
      · rw [hstep, hk']
        have h1 : g + G + G * (k' : Int) = g + G * ((k' + 1 : Nat) : Int) := by
          push_cast; ring
        have h2 : c + 1 + k' = c + (k' + 1) := by omega
        rw [h1, h2]
      · have : g + G * (↑k' + 1) = (g + G) + G * ↑k' := by ring
        push_cast
        omega
      · intro _
        by_cases hg2 : g + G < 0
        · have := hbd hg2
          have : g + G * (↑k' + 1 : Int) = (g + G) + G * ↑k' := by ring
          push_cast
          omega
        · have : k' = 0 := hz (by omega)
          subst this
          push_cast
          omega
      · intro h0; omega
    · refine ⟨0, ?_, by omega, by omega, fun _ => rfl⟩
      rw [gravityLoop_nonneg countExt () G (n+1) g c (by omega)]
      simp

/-- The exact state of the airborne gravity accumulator after `T` ticks under
gravity `G ≥ 1`: the accumulator equals `G * (1 + cells) - 100 * T`, is never
negative, and stays below `G` from the first tick on — so no fractional
gravity is ever lost or duplicated across ticks. -/
theorem gravityRun_inv (Gn : Nat) (hG : 1 ≤ Gn) : ∀ T : Nat,
    (gravityRun (Gn : Int) T).1 =
      (Gn : Int) * (1 + ((gravityRun (Gn : Int) T).2 : Int)) - 100 * T ∧
    0 ≤ (gravityRun (Gn : Int) T).1 ∧
    (1 ≤ T → (gravityRun (Gn : Int) T).1 < (Gn : Int)) := by
  intro T
  induction T with
  | zero =>
    refine ⟨?_, ?_, by omega⟩
    · show (Gn : Int) = (Gn : Int) * (1 + ((0 : Nat) : Int)) - 100 * ((0 : Nat) : Int)
      push_cast; ring
    · show (0 : Int) ≤ (Gn : Int)
      omega
  | succ T ih =>
    obtain ⟨heq, hpos, hlt⟩ := ih
    have hGi : (1 : Int) ≤ (Gn : Int) := by exact_mod_cast hG
    have hle : (gravityRun (Gn : Int) T).1 ≤ (Gn : Int) := by
      rcases Nat.eq_zero_or_pos T with h0 | h1
      · subst h0
        show (Gn : Int) ≤ (Gn : Int)
        omega
      · have := hlt h1; omega
    obtain ⟨k, hk, hpos', hbd, hz⟩ := gravityLoop_count (Gn : Int) hGi
      (((gravityRun (Gn : Int) T).1 - 100).natAbs + 1)
      ((gravityRun (Gn : Int) T).1 - 100) (gravityRun (Gn : Int) T).2 (by omega)
    have hstep : gravityRun (Gn : Int) (T+1) =
        ((gravityRun (Gn : Int) T).1 - 100 + (Gn : Int) * k,
         (gravityRun (Gn : Int) T).2 + k) := by
      show gravityTick (Gn : Int) (gravityRun (Gn : Int) T) = _
      unfold gravityTick gravityPhase
      simp only [mkGravityCfg]
      rw [hk]
    rw [hstep]
    refine ⟨?_, by simpa using hpos', fun _ => ?_⟩
    · have hring : (Gn : Int) * (1 + ((((gravityRun (Gn : Int) T).2 + k : Nat)) : Int)) -
          100 * ((T : Nat) + 1 : Nat) =
          ((Gn : Int) * (1 + ((gravityRun (Gn : Int) T).2 : Int)) - 100 * T) - 100 +
            (Gn : Int) * k := by
        push_cast; ring
      simp only [hring, ← heq]
    · by_cases hneg : (gravityRun (Gn : Int) T).1 - 100 < 0
      · exact hbd hneg
      · have : k = 0 := hz (by omega)
        subst this
        simp only [Nat.cast_zero, mul_zero, add_zero]
        omega

/-- C4 (amended): the fixed-point gravity accumulator carries the remainder
exactly across airborne ticks — after `T ≥ 1` airborne non-soft-dropping
ticks under gravity `G ≥ 1` the piece has fallen exactly
`⌈100·T / G⌉ - 1 = (100·T + G - 1) / G - 1` cells, with no drift (so
`gravity = 450` means one cell per 4.5 ticks on average, and `gravity = 4500`
one cell per 45 ticks); and when `G ≥ 100` a single tick can never drop more
than one cell (multi-cell drops require `G < 100`, not `G = 4500`). -/
theorem gravity_accumulator_exact :
    (∀ (Gn T : Nat), 1 ≤ Gn → 1 ≤ T →
       cellsAfter (Gn : Int) T = (100 * T + Gn - 1) / Gn - 1) ∧
    (∀ (Gn : Nat) (g : Int) (c : Nat), 100 ≤ Gn → 0 ≤ g →
       (gravityTick (Gn : Int) (g, c)).2 ≤ c + 1) := by
  constructor
  · intro Gn T hG hT
    obtain ⟨heq, hpos, hlt⟩ := gravityRun_inv Gn hG T
    have hlt' := hlt hT
    set c := (gravityRun (Gn : Int) T).2 with hc
    set g := (gravityRun (Gn : Int) T).1 with hg
    have hgn : ((g.toNat : Nat) : Int) = g := Int.toNat_of_nonneg hpos
    have hNatCast : ((Gn * (1 + c) : Nat) : Int) = ((100 * T + g.toNat : Nat) : Int) := by
      push_cast
      rw [hgn]
      linarith [heq]
    have hNat : Gn * (1 + c) = 100 * T + g.toNat := by exact_mod_cast hNatCast
    have hgnlt : g.toNat < Gn := by omega
    have hcomm : (c + 1) * Gn = Gn * (1 + c) := by ring
    have hdiv : (100 * T + Gn - 1) / Gn = c + 1 := by
      refine Nat.div_eq_of_lt_le ?_ ?_
      · rw [hcomm, hNat]; omega
      · have hcomm2 : (c + 1 + 1) * Gn = Gn * (1 + c) + Gn := by ring
        rw [hcomm2, hNat]; omega
    show c = (100 * T + Gn - 1) / Gn - 1
    omega
  · intro Gn g c hG hg
    have hGi : (1 : Int) ≤ (Gn : Int) := by exact_mod_cast (show 1 ≤ Gn by omega)
    obtain ⟨k, hk, hpos, hbd, hz⟩ := gravityLoop_count (Gn : Int) hGi
      ((g - 100).natAbs + 1) (g - 100) c (by omega)
    have hstep : gravityTick (Gn : Int) (g, c) =
        (g - 100 + (Gn : Int) * k, c + k) := by
      unfold gravityTick gravityPhase
      simp only [mkGravityCfg]
      rw [hk]
    rw [hstep]
    by_cases hneg : g - 100 < 0
    · have hb := hbd hneg
      have hk1 : k ≤ 1 := by
        rcases Nat.lt_or_ge k 2 with hlt | hge
        · omega
        · exfalso
          have hkc : (2 : Int) ≤ (k : Int) := by exact_mod_cast hge
          have hmul : (Gn : Int) * 2 ≤ (Gn : Int) * (k : Int) :=
            mul_le_mul_of_nonneg_left hkc (by positivity)
          have hG100 : (100 : Int) ≤ (Gn : Int) := by exact_mod_cast hG
          omega
      show c + k ≤ c + 1
      omega
    · have : k = 0 := hz (by omega)
      omega

/-- C4 witness: instantiating `gravity_accumulator_exact` at `gravity = 450`,
`T = 22` ticks (giving `(2200 + 449) / 450 - 1 = 4` cells) and at the default
`gravity = 4500` for the one-cell-per-tick bound. -/
theorem gravity_accumulator_exact_witness :
    cellsAfter ((450 : Nat) : Int) 22 = (100 * 22 + 450 - 1) / 450 - 1 ∧
    (gravityTick (((4500 : Nat)) : Int) (4400, 0)).2 ≤ 0 + 1 :=
  ⟨gravity_accumulator_exact.1 450 22 (by omega) (by omega),
   gravity_accumulator_exact.2 4500 4400 0 (by omega) (by omega)⟩

/-- C5 counterexample: in the DAS scenario (DAS 12, ARR 1, left held
continuously), a shift fires on tick 13 but NOT on tick 14 — after the DAS
countdown first expires the code produces one shift every `ARR + 1 = 2`
ticks, not one shift per tick as claimed. -/
theorem das_arr_counterexample : movedAt 13 = true ∧ movedAt 14 = false := by decide

/-- `extC` places nothing on the stack. -/
theorem extC_on_stack (b : Unit) (p : Int × Int) : extC.on_stack b p = false := rfl

/-- `extC`'s sonic drop projects 1000 cells straight down. -/
theorem extC_sonic (b : Unit) (p : Int × Int) :
    extC.sonic_drop b p = (p.1, p.2 - 1000) := rfl

/-- `extC`'s lowest-cell row is the piece's y-coordinate. -/
theorem extC_min_y (p : Int × Int) : extC.min_y p = p.2 := rfl

/-- Hard drop is released in the default controller snapshot. -/
theorem cdef_hard : Controller.default.hard_drop = false := rfl

/-- Soft drop is released in the default controller snapshot. -/
theorem cdef_soft : Controller.default.soft_drop = false := rfl

/-- One iteration of the gravity catch-up loop when a single `+G` suffices. -/
theorem gravityLoop_once (ext : Ext B P K R) (b : B) (G : Int) (n : Nat) (g : Int)
    (p : P) (h1 : g < 0) (h2 : 0 ≤ g + G) :
    gravityLoop ext b G (n+1) g p =
      (g + G, match ext.shift b p 0 (-1) with | some q => q | none => p) := by
  simp only [gravityLoop, if_pos h1]
  exact gravityLoop_nonneg ext b G n _ _ h2

/-- The rotate/shift phase does nothing when no direction is marked used. -/
theorem movePhase_id (b : Unit) (f : FallingState (Int × Int)) :
    movePhase extC b Controller.default f = (Controller.default, f, []) := rfl

/-- The rotate/shift phase with only left marked used on the bottomless board:
one successful left shift, the flag consumed, `PieceMoved` emitted. -/
theorem movePhase_left (b : Unit) (f : FallingState (Int × Int)) :
    movePhase extC b { Controller.default with left := true } f =
      (Controller.default,
       { f with piece := (f.piece.1 + -1, f.piece.2 + 0),
                rotation_move_count := f.rotation_move_count + 1, lock_delay := 30 },
       [Event.PieceMoved]) := rfl

/-- The generic Falling tick of the DAS scenario: with hold not taken and the
rotate/shift phase summarised by `hmp`, the tick neither locks nor lands, the
used snapshot is cleared, and the only events are the phase's events followed
by the falling/ghost snapshot; the scenario invariant on gravity and the
sonic-drop projection is preserved. -/
theorem c5_fallingTick (g : Game Unit (Int × Int) Unit) (f f4 : FallingState (Int × Int))
    (evs0 : List (Event (Int × Int) Unit))
    (hcfg : g.config = cfgC)
    (hhold : (!g.did_hold && g.used.hold) = false)
    (hmp : movePhase extC g.board.stack g.used f = (Controller.default, f4, evs0))
    (hg4 : 0 ≤ f4.gravity) (hlow4 : f4.piece.2 - 1000 < f4.lowest_y) :
    ∃ f' : FallingState (Int × Int),
      fallingTick extC g f () =
        ({ g with used := Controller.default, state := GameState.Falling f' }, (),
         evs0 ++ [Event.PieceFalling f'.piece (f'.piece.1, f'.piece.2 - 1000)]) ∧
      0 ≤ f'.gravity ∧ f'.piece.2 - 1000 < f'.lowest_y := by
  simp only [fallingTick, hhold, Bool.false_eq_true, if_false, hmp]
  set f5 := lowestPhase extC f4 with hf5
  have hf5props : f5.piece = f4.piece ∧ f5.gravity = f4.gravity ∧
      f5.piece.2 - 1000 < f5.lowest_y ∧ f5.soft_drop_delay = f4.soft_drop_delay := by
    rw [hf5]
    simp only [lowestPhase]
    split_ifs with hy
    · refine ⟨rfl, rfl, ?_, rfl⟩
      have hmy : extC.min_y f4.piece = f4.piece.2 := rfl
      rw [hmy] at hy
      dsimp only
      rw [hmy]
      omega
    · exact ⟨rfl, rfl, hlow4, rfl⟩
  have hno : ¬ (15 ≤ f5.rotation_move_count ∧
      f5.lowest_y ≤ extC.min_y (extC.sonic_drop g.board.stack f5.piece)) := by
    rintro ⟨-, h2⟩
    have hmy : extC.min_y (extC.sonic_drop g.board.stack f5.piece) = f5.piece.2 - 1000 := rfl
    rw [hmy] at h2
    omega
  rw [if_neg hno]
  simp only [cdef_hard, cdef_soft, Bool.false_eq_true, if_false, extC_on_stack]
  rw [hcfg]
  have hg5 : 0 ≤ f5.gravity := by rw [hf5props.2.1]; exact hg4
  obtain ⟨g6, p6, hgp, hg6, hp6a, hp6b⟩ :
      ∃ g6 p6, gravityPhase extC g.board.stack cfgC f5 =
          { f5 with lock_delay := 30, gravity := g6, piece := p6 } ∧
        0 ≤ g6 ∧ p6.2 ≤ f5.piece.2 ∧ f5.piece.2 - 1 ≤ p6.2 := by
    by_cases hneg : f5.gravity - 100 < 0
    · refine ⟨f5.gravity - 100 + cfgC.gravity, (f5.piece.1 + 0, f5.piece.2 + (-1)),
        ?_, ?_, ?_, ?_⟩
      · unfold gravityPhase
        dsimp only
        rw [gravityLoop_once extC g.board.stack cfgC.gravity ((f5.gravity - 100).natAbs)
          (f5.gravity - 100) f5.piece hneg
          (by have hgc : cfgC.gravity = 45000 := rfl; omega)]
        rfl
      · have hgc : cfgC.gravity = 45000 := rfl
        omega
      · dsimp only
        omega
      · dsimp only
        omega
    · refine ⟨f5.gravity - 100, f5.piece, ?_, by omega, by omega, by omega⟩
      unfold gravityPhase
      dsimp only
      rw [gravityLoop_nonneg extC g.board.stack cfgC.gravity _ _ _ (by omega)]
  rw [hgp]
  simp only [extC_on_stack, Bool.false_eq_true, if_false]
  rw [if_pos (show (cfgC.soft_drop_speed : Int) * 100 < cfgC.gravity by norm_num [cfgC])]
  refine ⟨{ f5 with lock_delay := 30, gravity := g6, piece := p6, soft_drop_delay := 0 },
    ?_, hg6, ?_⟩
  · simp only [extC_sonic]
  · dsimp only
    have := hf5props.2.2.1
    omega

/-- One tick of the DAS scenario from any state satisfying the invariant:
the tick succeeds, the invariant is preserved, the countdown steps
`0 ↦ auto_repeat_rate = 1` (firing one shift) or decrements, and a
`PieceMoved` event happens exactly when the countdown was 0. -/
theorem c5_step (g : Game Unit (Int × Int) Unit) (h : C5Inv g) :
    ∃ g' evs, gameUpdate extC g heldL () = some (g', (), evs) ∧ C5Inv g' ∧
      g'.das_delay = (if g.das_delay = 0 then 1 else g.das_delay - 1) ∧
      (Event.PieceMoved ∈ evs ↔ g.das_delay = 0) := by
  obtain ⟨hcfg, hdh, hprev, hused, f, hst, hg, hlow⟩ := h
  by_cases hd : g.das_delay = 0
  · have hip : inputPhase g.config g.prev g.used heldL g.das_delay =
        ({ Controller.default with left := true }, 1) := by
      rw [hcfg, hprev, hused, hd]
      rfl
    have hup : gameUpdate extC g heldL () =
        some (fallingTick extC
          { g with used := { Controller.default with left := true },
                   das_delay := 1, prev := heldL } f ()) := by
      unfold gameUpdate
      rw [hip]
      dsimp only
      rw [hst]
    obtain ⟨f', hft, hg', hlow'⟩ := c5_fallingTick
      { g with used := { Controller.default with left := true },
               das_delay := 1, prev := heldL } f
      { f with piece := (f.piece.1 + -1, f.piece.2 + 0),
               rotation_move_count := f.rotation_move_count + 1, lock_delay := 30 }
      [Event.PieceMoved] hcfg (by simp [hdh, Controller.default]) (movePhase_left _ f) hg
      (by dsimp only; omega)
    rw [hft] at hup
    refine ⟨_, _, hup, ?_, ?_, ?_⟩
    · exact ⟨hcfg, hdh, rfl, rfl, f', rfl, hg', hlow'⟩
    · simp [hd]
    · simp [hd]
  · have hip : inputPhase g.config g.prev g.used heldL g.das_delay =
        (Controller.default, g.das_delay - 1) := by
      rw [hcfg, hprev, hused]
      unfold inputPhase
      have hbeq : (g.das_delay == 0) = false := by
        simp [hd]
      simp [update_input, heldL, Controller.default, hbeq, cfgC]
    have hup : gameUpdate extC g heldL () =
        some (fallingTick extC
          { g with used := Controller.default,
                   das_delay := g.das_delay - 1, prev := heldL } f ()) := by
      unfold gameUpdate
      rw [hip]
      dsimp only
      rw [hst]
    obtain ⟨f', hft, hg', hlow'⟩ := c5_fallingTick
      { g with used := Controller.default,
               das_delay := g.das_delay - 1, prev := heldL } f f []
      hcfg (by simp [hdh, Controller.default]) (movePhase_id _ f) hg hlow
    rw [hft] at hup
    refine ⟨_, _, hup, ?_, ?_, ?_⟩
    · exact ⟨hcfg, hdh, rfl, rfl, f', rfl, hg', hlow'⟩
    · simp [hd]
    · simp [hd]

/-- The DAS scenario trace: every tick of `c5Run` succeeds, satisfies the
invariant, carries the countdown `dasAfter k`, and its events contain a
`PieceMoved` exactly when the countdown of the previous tick was 0. -/
theorem c5_trace : ∀ k, ∃ g evs,
    c5Run k = some (g, (), evs) ∧ C5Inv g ∧ g.das_delay = dasAfter k ∧
    (0 < k → (Event.PieceMoved ∈ evs ↔ dasAfter (k-1) = 0)) := by
  intro k
  induction k with
  | zero =>
    refine ⟨gC0, [], rfl, ?_, rfl, by omega⟩
    exact ⟨rfl, rfl, rfl, rfl, _, rfl, by decide, by decide⟩
  | succ k ih =>
    obtain ⟨g, evs, hrun, hInv, hdas, _⟩ := ih
    obtain ⟨g', evs', hup, hInv', hdas', hmv⟩ := c5_step g hInv
    refine ⟨g', evs', ?_, hInv', ?_, ?_⟩
    · show c5Run (k+1) = _
      unfold c5Run
      rw [hrun]
      exact hup
    · rw [hdas']
      show _ = dasAfter (k+1)
      unfold dasAfter
      rw [hdas]
    · intro _
      simpa [hdas] using hmv

/-- Closed form of the DAS countdown sequence: it counts 12 down to 0 over
the first 12 ticks, then alternates 1, 0 forever. -/
theorem dasAfter_closed : ∀ k, dasAfter k =
    if k < 13 then 12 - k else if k % 2 = 1 then 1 else 0 := by
  intro k
  induction k with
  | zero => rfl
  | succ k ih =>
    show (if dasAfter k = 0 then 1 else dasAfter k - 1) = _
    rw [ih]
    by_cases h1 : k < 13
    · by_cases h2 : k = 12
      · subst h2
        decide
      · have h3 : k + 1 < 13 := by omega
        have h4 : ¬ (12 - k = 0) := by omega
        rw [if_pos h1, if_neg h4, if_pos h3]
        omega
    · have h3 : ¬ (k + 1 < 13) := by omega
      by_cases h2 : k % 2 = 1
      · have h5 : ¬ ((1 : Nat) = 0) := by omega
        have h6 : ¬ ((k + 1) % 2 = 1) := by omega
        rw [if_neg h1, if_pos h2, if_neg h5, if_neg h3, if_neg h6]
      · have h6 : (k + 1) % 2 = 1 := by omega
        rw [if_neg h1, if_neg h2, if_pos rfl, if_neg h3, if_pos h6]

/-- C5 (amended): in the DAS scenario (DAS 12, ARR 1, left held continuously
and already held at the start), every tick succeeds, no shift happens for the
first 12 ticks, and thereafter a shift fires exactly on every second tick
(ticks 13, 15, 17, ...): each time the countdown reaches 0 it resets to
`auto_repeat_rate = 1` and marks left used, producing one shift every
`auto_repeat_rate + 1 = 2` ticks — not one per tick. -/
theorem das_arr_schedule (k : Nat) (hk : 1 ≤ k) :
    (c5Run k).isSome = true ∧ (movedAt k = true ↔ (13 ≤ k ∧ k % 2 = 1)) := by
  obtain ⟨g, evs, hrun, _, _, hmv⟩ := c5_trace k
  have hmv' := hmv (by omega)
  constructor
  · rw [hrun]; rfl
  · unfold movedAt
    rw [hrun]
    dsimp only
    rw [decide_eq_true_iff]
    rw [hmv']
    rw [dasAfter_closed (k - 1)]
    by_cases h1 : k - 1 < 13
    · rw [if_pos h1]
      omega
    · rw [if_neg h1]
      by_cases h2 : (k - 1) % 2 = 1
      · rw [if_pos h2]
        omega
      · rw [if_neg h2]
        omega

/-- C5 witness: `das_arr_schedule` instantiated at tick 13, the first tick on
which a shift fires after the initial 12-tick delay. -/
theorem das_arr_schedule_witness :
    (c5Run 13).isSome = true ∧ (movedAt 13 = true ↔ (13 ≤ 13 ∧ 13 % 2 = 1)) :=
  das_arr_schedule 13 (by omega)

/-- C6: in the Falling state, when the hold branch does not consume the tick
and — after the rotation/shift phase and move-reset bookkeeping — the
move-reset counter has reached 15 and the sonic-drop projection would not
descend below the recorded lowest row, the tick locks the piece immediately:
the result is exactly the rotation/shift events followed by `lock` applied to
the mid-tick state with no hard-drop distance — no hard-drop, gravity or
soft-drop processing happens that tick. -/
theorem fifteen_move_rule_locks (ext : Ext B P K R) (g : Game B P K)
    (f : FallingState P) (r : R)
    (h1 : (!g.did_hold && g.used.hold) = false)
    (h2 : 15 ≤ (lowestPhase ext (movePhase ext g.board.stack g.used f).2.1).rotation_move_count)
    (h3 : (lowestPhase ext (movePhase ext g.board.stack g.used f).2.1).lowest_y ≤
          ext.min_y (ext.sonic_drop g.board.stack
            (lowestPhase ext (movePhase ext g.board.stack g.used f).2.1).piece)) :
    fallingTick ext g f r =
      ((lockFn ext { g with used := (movePhase ext g.board.stack g.used f).1 }
          (lowestPhase ext (movePhase ext g.board.stack g.used f).2.1) none r).1,
       (lockFn ext { g with used := (movePhase ext g.board.stack g.used f).1 }
          (lowestPhase ext (movePhase ext g.board.stack g.used f).2.1) none r).2.1,
       (movePhase ext g.board.stack g.used f).2.2 ++
         (lockFn ext { g with used := (movePhase ext g.board.stack g.used f).1 }
            (lowestPhase ext (movePhase ext g.board.stack g.used f).2.1) none r).2.2) := by
  unfold fallingTick
  simp only [h1, Bool.false_eq_true, if_false]
  rw [if_pos ⟨h2, h3⟩]

/-- C6 witness: `fifteen_move_rule_locks` instantiated at a concrete falling
state with `rotation_move_count = 15` whose sonic-drop projection stays at
the recorded lowest row. -/
theorem fifteen_move_rule_locks_witness :
    fallingTick extL gW6 fW6 () =
      ((lockFn extL { gW6 with used := (movePhase extL gW6.board.stack gW6.used fW6).1 }
          (lowestPhase extL (movePhase extL gW6.board.stack gW6.used fW6).2.1) none ()).1,
       (lockFn extL { gW6 with used := (movePhase extL gW6.board.stack gW6.used fW6).1 }
          (lowestPhase extL (movePhase extL gW6.board.stack gW6.used fW6).2.1) none ()).2.1,
       (movePhase extL gW6.board.stack gW6.used fW6).2.2 ++
         (lockFn extL { gW6 with used := (movePhase extL gW6.board.stack gW6.used fW6).1 }
            (lowestPhase extL (movePhase extL gW6.board.stack gW6.used fW6).2.1) none ()).2.2) :=
  fifteen_move_rule_locks extL gW6 fW6 () (by decide) (by decide) (by decide)

/-- C7: (a) `used.hard_drop` is set by the input phase exactly on the tick
the hard-drop button transitions from not-held to held — never by
auto-repeat, which touches only left/right; (b) in the Falling state, when
the hold branch does not consume the tick, the 15-move lock rule does not
fire, and hard drop is used, the piece is sonic-dropped and locked within
that same tick, with the recorded distance equal to the piece's y-coordinate
before the drop minus its y-coordinate after. -/
theorem hard_drop_edge_and_lock :
    (∀ (cfg : GameConfig) (prev used cur : Controller) (das : Nat),
       (inputPhase cfg prev used cur das).1.hard_drop =
         (!prev.hard_drop && cur.hard_drop)) ∧
    (∀ {B2 P2 K2 R2 : Type} (ext : Ext B2 P2 K2 R2) (g : Game B2 P2 K2)
       (f : FallingState P2) (r : R2),
       (!g.did_hold && g.used.hold) = false →
       ¬ (15 ≤ (lowestPhase ext (movePhase ext g.board.stack g.used f).2.1).rotation_move_count ∧
          (lowestPhase ext (movePhase ext g.board.stack g.used f).2.1).lowest_y ≤
            ext.min_y (ext.sonic_drop g.board.stack
              (lowestPhase ext (movePhase ext g.board.stack g.used f).2.1).piece)) →
       (movePhase ext g.board.stack g.used f).1.hard_drop = true →
       fallingTick ext g f r =
         ((lockFn ext { g with used := (movePhase ext g.board.stack g.used f).1 }
             { lowestPhase ext (movePhase ext g.board.stack g.used f).2.1 with
               piece := ext.sonic_drop g.board.stack
                 (lowestPhase ext (movePhase ext g.board.stack g.used f).2.1).piece }
             (some (ext.piece_y
                       (lowestPhase ext (movePhase ext g.board.stack g.used f).2.1).piece -
                    ext.piece_y (ext.sonic_drop g.board.stack
                      (lowestPhase ext (movePhase ext g.board.stack g.used f).2.1).piece)))
             r).1,
          (lockFn ext { g with used := (movePhase ext g.board.stack g.used f).1 }
             { lowestPhase ext (movePhase ext g.board.stack g.used f).2.1 with
               piece := ext.sonic_drop g.board.stack
                 (lowestPhase ext (movePhase ext g.board.stack g.used f).2.1).piece }
             (some (ext.piece_y
                       (lowestPhase ext (movePhase ext g.board.stack g.used f).2.1).piece -
                    ext.piece_y (ext.sonic_drop g.board.stack
                      (lowestPhase ext (movePhase ext g.board.stack g.used f).2.1).piece)))
             r).2.1,
          (movePhase ext g.board.stack g.used f).2.2 ++
            (lockFn ext { g with used := (movePhase ext g.board.stack g.used f).1 }
               { lowestPhase ext (movePhase ext g.board.stack g.used f).2.1 with
                 piece := ext.sonic_drop g.board.stack
                   (lowestPhase ext (movePhase ext g.board.stack g.used f).2.1).piece }
               (some (ext.piece_y
                         (lowestPhase ext (movePhase ext g.board.stack g.used f).2.1).piece -
                      ext.piece_y (ext.sonic_drop g.board.stack
                        (lowestPhase ext (movePhase ext g.board.stack g.used f).2.1).piece)))
               r).2.2)) := by
  constructor
  · intro cfg prev used cur das
    simp only [inputPhase]
    split_ifs <;> rfl
  · intro B2 P2 K2 R2 ext g f r h1 h2 h4
    unfold fallingTick
    simp only [h1, Bool.false_eq_true, if_false]
    rw [if_neg h2]
    simp only [h4, if_true]

/-- Every call to `deal_garbage` returns with the attack accumulator zeroed:
it is either absorbed by queued garbage or emitted as a `GarbageSent` event. -/
theorem dealGarbage_attacking_zero (ext : Ext B P K R) (g : Game B P K) (r : R) :
    (dealGarbage ext g r).1.attacking = 0 := by
  unfold dealGarbage
  by_cases h : g.garbage_queue < g.attacking
  · simp only [if_pos h]
    have h0 : ¬ (0 : Nat) < 0 := by omega
    have h1 : 0 < g.attacking - g.garbage_queue := by omega
    simp [h0, h1]
  · simp only [if_neg h]
    by_cases hq : 0 < g.garbage_queue - g.attacking
    · simp only [if_pos hq]
      split <;> rfl
    · simp [hq]

/-- When the outgoing attack exceeds the queued garbage, `deal_garbage` emits
the net difference as a `GarbageSent` event. -/
theorem dealGarbage_sent_mem (ext : Ext B P K R) (g : Game B P K) (r : R)
    (h : g.garbage_queue < g.attacking) :
    Event.GarbageSent (g.attacking - g.garbage_queue) ∈ (dealGarbage ext g r).2.2 := by
  unfold dealGarbage
  simp only [if_pos h]
  have h0 : ¬ (0 : Nat) < 0 := by omega
  have h1 : 0 < g.attacking - g.garbage_queue := by omega
  simp [h0, h1]

/-- `dealGarbage` never touches the next-piece queue or the configuration. -/
theorem dealGarbage_queue_config (ext : Ext B P K R) (g : Game B P K) (r : R) :
    (dealGarbage ext g r).1.board.queue = g.board.queue ∧
    (dealGarbage ext g r).1.config = g.config := by
  unfold dealGarbage
  by_cases h : g.garbage_queue < g.attacking
  · simp only [if_pos h]
    have h0 : ¬ (0 : Nat) < 0 := by omega
    by_cases h1 : 0 < g.attacking - g.garbage_queue <;> simp [h0, h1]
  · simp only [if_neg h]
    by_cases hq : 0 < g.garbage_queue - g.attacking
    · simp only [if_pos hq]
      split <;> exact ⟨rfl, rfl⟩
    · simp [hq]

/-- `lock` preserves the invariant: entered with a zero attack accumulator,
it either returns with the accumulator still zero or transitions to the
line-clear-delay state. -/
theorem lockFn_att (ext : Ext B P K R) (g : Game B P K) (f : FallingState P)
    (d : Option Int) (r : R) (hz : g.attacking = 0) :
    (lockFn ext g f d r).1.attacking = 0 ∨
    (lockFn ext g f d r).1.state.isLCD = true := by
  unfold lockFn
  dsimp only
  split_ifs with h1 h2
  · exact Or.inl hz
  · exact Or.inl (dealGarbage_attacking_zero ext _ r)
  · exact Or.inr rfl

/-- `lock` never touches the next-piece queue or the configuration. -/
theorem lockFn_queue_config (ext : Ext B P K R) (g : Game B P K) (f : FallingState P)
    (d : Option Int) (r : R) :
    (lockFn ext g f d r).1.board.queue = g.board.queue ∧
    (lockFn ext g f d r).1.config = g.config := by
  unfold lockFn
  dsimp only
  split_ifs with h1 h2
  · exact ⟨rfl, rfl⟩
  · exact (dealGarbage_queue_config ext _ r)
  · exact ⟨rfl, rfl⟩

/-- A Falling-state tick preserves the invariant: entered with a zero attack
accumulator, it returns with the accumulator zero unless it moved to
line-clear delay. -/
theorem fallingTick_att (ext : Ext B P K R) (g : Game B P K) (f : FallingState P)
    (r : R) (hz : g.attacking = 0) :
    (fallingTick ext g f r).1.attacking = 0 ∨
    (fallingTick ext g f r).1.state.isLCD = true := by
  cases hb : (!g.did_hold && g.used.hold) with
  | false =>
    simp only [fallingTick, hb, Bool.false_eq_true, if_false]
    split_ifs <;> first
      | exact lockFn_att ext _ _ _ r hz
      | exact Or.inl hz
  | true =>
    simp only [fallingTick, hb, eq_self_iff_true, if_true]
    rcases hh : (ext.hold g.board.stack (ext.kind f.piece)).1 with _ | k
    · simp only [hh]
      exact Or.inl hz
    · rcases hs : ext.spawn k (ext.hold g.board.stack (ext.kind f.piece)).2 with _ | sp
      · simp only [hh, hs]
        exact Or.inl hz
      · simp only [hh, hs]
        exact Or.inl hz

/-- A Falling-state tick never touches the next-piece queue or the
configuration. -/
theorem fallingTick_queue_config (ext : Ext B P K R) (g : Game B P K)
    (f : FallingState P) (r : R) :
    (fallingTick ext g f r).1.board.queue = g.board.queue ∧
    (fallingTick ext g f r).1.config = g.config := by
  cases hb : (!g.did_hold && g.used.hold) with
  | false =>
    simp only [fallingTick, hb, Bool.false_eq_true, if_false]
    split_ifs <;> first
      | exact lockFn_queue_config ext _ _ _ r
      | exact ⟨rfl, rfl⟩
  | true =>
    simp only [fallingTick, hb, eq_self_iff_true, if_true]
    rcases hh : (ext.hold g.board.stack (ext.kind f.piece)).1 with _ | k
    · simp only [hh]
      refine ⟨?_, ?_⟩ <;> trivial
    · rcases hs : ext.spawn k (ext.hold g.board.stack (ext.kind f.piece)).2 with _ | sp
      · simp only [hh, hs]
        refine ⟨?_, ?_⟩ <;> trivial
      · simp only [hh, hs]
        refine ⟨?_, ?_⟩ <;> trivial

/-- One tick of `Game::update` preserves the attack invariant. -/
theorem gameUpdate_att (ext : Ext B P K R) (g0 : Game B P K) (c : Controller) (r : R)
    (hInv : g0.attacking = 0 ∨ g0.state.isLCD = true)
    (t : Game B P K × R × List (Event P K)) (ht : gameUpdate ext g0 c r = some t) :
    t.1.attacking = 0 ∨ t.1.state.isLCD = true := by
  unfold gameUpdate at ht
  dsimp only at ht
  rcases hst : g0.state with n | n | f | _
  · have hz : g0.attacking = 0 := by
      rcases hInv with h | h
      · exact h
      · rw [hst] at h; exact absurd h (by simp [GameState.isLCD])
    rw [hst] at ht
    rcases n with _ | n
    · dsimp only at ht
      rcases hq : GBoard.advance_queue g0.board with _ | nq
      · rw [hq] at ht; exact absurd ht (by simp)
      · rw [hq] at ht
        dsimp only at ht
        rcases hs : ext.spawn nq.1 (GBoard.add_next_piece nq.2
            (ext.generate_next_piece nq.2.stack r).1).stack with _ | sp <;>
          rw [hs] at ht <;> dsimp only at ht <;>
          rw [← Option.some.inj ht] <;> exact Or.inl hz
    · dsimp only at ht
      have := Option.some.inj ht; subst this
      exact Or.inl hz
  · rw [hst] at ht
    rcases n with _ | n
    · dsimp only at ht
      have := Option.some.inj ht; subst this
      exact Or.inl (dealGarbage_attacking_zero ext _ r)
    · dsimp only at ht
      have := Option.some.inj ht; subst this
      exact Or.inr rfl
  · have hz : g0.attacking = 0 := by
      rcases hInv with h | h
      · exact h
      · rw [hst] at h; exact absurd h (by simp [GameState.isLCD])
    rw [hst] at ht
    dsimp only at ht
    have := Option.some.inj ht; subst this
    exact fallingTick_att ext _ f r hz
  · have hz : g0.attacking = 0 := by
      rcases hInv with h | h
      · exact h
      · rw [hst] at h; exact absurd h (by simp [GameState.isLCD])
    rw [hst] at ht
    dsimp only at ht
    have := Option.some.inj ht; subst this
    exact Or.inl hz

/-- Driving a game preserves the attack invariant, including across the
orchestrator's garbage-queue additions. -/
theorem gameSteps_att (ext : Ext B P K R) :
    ∀ (ins : List (Controller × Nat)) (g : Game B P K) (r : R)
      (g' : Game B P K) (r' : R),
      (g.attacking = 0 ∨ g.state.isLCD = true) →
      gameSteps ext g r ins = some (g', r') →
      (g'.attacking = 0 ∨ g'.state.isLCD = true) := by
  intro ins
  induction ins with
  | nil =>
    intro g r g' r' hInv h
    unfold gameSteps at h
    have h' := Option.some.inj h
    have hg : g = g' := congrArg Prod.fst h'
    exact hg ▸ hInv
  | cons s rest ih =>
    intro g r g' r' hInv h
    unfold gameSteps at h
    rcases ht : gameUpdate ext g s.1 r with _ | t
    · rw [ht] at h; exact absurd h (by simp)
    · rw [ht] at h
      dsimp only at h
      have hInv' := gameUpdate_att ext g s.1 r hInv t ht
      exact ih { t.1 with garbage_queue := t.1.garbage_queue + s.2 } t.2.1 g' r' hInv' h

/-- C9: the outgoing-attack accumulator is nonzero only in line-clear delay.
(a) every `deal_garbage` call returns with `attacking = 0`, the excess over
the queued garbage (if any) having been emitted as a `GarbageSent` event;
(b) `lock` entered with a zero accumulator leaves it nonzero only when it
transitions to `LineClearDelay`; (c) in every state reachable from
`Game::new` by ticks (with arbitrary orchestrator garbage additions),
`attacking ≠ 0` implies the state is `LineClearDelay`. -/
theorem attacking_only_line_clear_delay :
    (∀ {B2 P2 K2 R2 : Type} (ext : Ext B2 P2 K2 R2) (g : Game B2 P2 K2) (r : R2),
       (dealGarbage ext g r).1.attacking = 0 ∧
       (g.garbage_queue < g.attacking →
          Event.GarbageSent (g.attacking - g.garbage_queue) ∈ (dealGarbage ext g r).2.2)) ∧
    (∀ {B2 P2 K2 R2 : Type} (ext : Ext B2 P2 K2 R2) (g : Game B2 P2 K2)
       (f : FallingState P2) (d : Option Int) (r : R2),
       g.attacking = 0 → (lockFn ext g f d r).1.attacking ≠ 0 →
       (lockFn ext g f d r).1.state.isLCD = true) ∧
    (∀ {B2 P2 K2 R2 : Type} (ext : Ext B2 P2 K2 R2) (cfg : GameConfig) (b0 : B2)
       (r : R2) (ins : List (Controller × Nat)) (g' : Game B2 P2 K2) (r' : R2),
       gameRun ext cfg b0 r ins = some (g', r') → g'.attacking ≠ 0 →
       g'.state.isLCD = true) := by
  refine ⟨?_, ?_, ?_⟩
  · intro B2 P2 K2 R2 ext g r
    exact ⟨dealGarbage_attacking_zero ext g r, fun h => dealGarbage_sent_mem ext g r h⟩
  · intro B2 P2 K2 R2 ext g f d r hz hne
    rcases lockFn_att ext g f d r hz with h | h
    · exact absurd h hne
    · exact h
  · intro B2 P2 K2 R2 ext cfg b0 r ins g' r' hrun hne
    have h0 : ((Game.new ext cfg b0 r).1.attacking = 0 ∨
        (Game.new ext cfg b0 r).1.state.isLCD = true) := Or.inl rfl
    rcases gameSteps_att ext ins _ _ g' r' h0 hrun with h | h
    · exact absurd h hne
    · exact h

/-- C9 witness: `attacking_only_line_clear_delay` instantiated concretely —
(a) at `attacking = 5, garbage_queue = 3`; (b) at a lock that clears a line
(leaving `attacking = 3 ≠ 0`); (c) at a 31-tick run (`c9Run`) that ends in a
line-clear-delay state with `attacking = 3`. -/
theorem attacking_only_line_clear_delay_witness :
    Event.GarbageSent ((mkGameC defaultConfig 5 3).attacking -
        (mkGameC defaultConfig 5 3).garbage_queue) ∈
      (dealGarbage countExt (mkGameC defaultConfig 5 3) ()).2.2 ∧
    (lockFn extL gW6 fW6 none ()).1.state.isLCD = true ∧
    c9Run.map (fun tp => tp.1.state.isLCD) = some true := by
  refine ⟨?_, ?_, ?_⟩
  · exact (attacking_only_line_clear_delay.1 countExt (mkGameC defaultConfig 5 3) ()).2
      (by decide)
  · exact attacking_only_line_clear_delay.2.1 extL gW6 fW6 none () (by decide) (by decide)
  · rcases hv : c9Run with _ | tp
    · exact absurd hv (by decide)
    · have hatt : tp.1.attacking ≠ 0 := by
        have h3 : c9Run.map (fun tq => tq.1.attacking) = some 3 := by decide
        rw [hv] at h3
        simp at h3
        omega
      have hl := attacking_only_line_clear_delay.2.2 extL cfgL () () insL tp.1 tp.2
        hv hatt
      simp [hl]

/-- `fillQueue` appends exactly `n` freshly generated pieces. -/
theorem fillQueue_len (ext : Ext B P K R) :
    ∀ (n : Nat) (b : GBoard B K) (r : R),
      (fillQueue ext n b r).1.queue.length = b.queue.length + n := by
  intro n
  induction n with
  | zero => intro b r; simp [fillQueue]
  | succ n ih =>
    intro b r
    unfold fillQueue
    dsimp only
    rw [ih]
    simp [GBoard.add_next_piece]
    omega

/-- One tick of `Game::update` with a full queue and a positive queue size
always succeeds and keeps the queue full: the `SpawnDelay 0` branch pops one
piece and immediately pushes one freshly generated piece. -/
theorem gameUpdate_queue (ext : Ext B P K R) (g0 : Game B P K) (c : Controller) (r : R)
    (hlen : g0.board.queue.length = g0.config.next_queue_size)
    (hs : 1 ≤ g0.config.next_queue_size) :
    ∃ t, gameUpdate ext g0 c r = some t ∧
      t.1.board.queue.length = t.1.config.next_queue_size ∧
      t.1.config = g0.config := by
  unfold gameUpdate
  dsimp only
  rcases hst : g0.state with n | n | f | _
  · rcases n with _ | n
    · rcases hq : g0.board.queue with _ | ⟨k, rest⟩
      · exfalso
        rw [hq] at hlen
        simp at hlen
        omega
      · have hadv : GBoard.advance_queue g0.board =
            some (k, { g0.board with queue := rest }) := by
          unfold GBoard.advance_queue
          rw [hq]
        dsimp only
        rw [hadv]
        dsimp only
        have hlen' : rest.length + 1 = g0.config.next_queue_size := by
          rw [hq] at hlen
          simpa using hlen
        split
        · refine ⟨_, rfl, ?_, rfl⟩
          simp [GBoard.add_next_piece]
          omega
        · refine ⟨_, rfl, ?_, rfl⟩
          simp [GBoard.add_next_piece]
          omega
    · dsimp only
      exact ⟨_, rfl, hlen, rfl⟩
  · rcases n with _ | n
    · dsimp only
      refine ⟨_, rfl, ?_, ?_⟩
      · have hdq := dealGarbage_queue_config ext
          { g0 with prev := c,
                    used := (inputPhase g0.config g0.prev g0.used c g0.das_delay).1,
                    das_delay := (inputPhase g0.config g0.prev g0.used c g0.das_delay).2,
                    state := GameState.SpawnDelay g0.config.spawn_delay } r
        rw [hdq.1, hdq.2]
        exact hlen
      · exact (dealGarbage_queue_config ext _ r).2
    · dsimp only
      exact ⟨_, rfl, hlen, rfl⟩
  · dsimp only
    refine ⟨_, rfl, ?_, ?_⟩
    · have hft := fallingTick_queue_config ext
        { g0 with prev := c,
                  used := (inputPhase g0.config g0.prev g0.used c g0.das_delay).1,
                  das_delay := (inputPhase g0.config g0.prev g0.used c g0.das_delay).2,
                  state := GameState.Falling f } f r
      rw [hft.1, hft.2]
      exact hlen
    · exact (fallingTick_queue_config ext _ f r).2
  · dsimp only
    exact ⟨_, rfl, hlen, rfl⟩

/-- Driving a game with a full queue and a positive queue size never hits the
`advance_queue().unwrap()` panic. -/
theorem gameSteps_queue_isSome (ext : Ext B P K R) :
    ∀ (ins : List (Controller × Nat)) (g : Game B P K) (r : R),
      g.board.queue.length = g.config.next_queue_size →
      1 ≤ g.config.next_queue_size →
      (gameSteps ext g r ins).isSome = true := by
  intro ins
  induction ins with
  | nil => intro g r _ _; rfl
  | cons s rest ih =>
    intro g r hlen hs
    obtain ⟨t, ht, hlen', hcfg⟩ := gameUpdate_queue ext g s.1 r hlen hs
    unfold gameSteps
    rw [ht]
    dsimp only
    exact ih { t.1 with garbage_queue := t.1.garbage_queue + s.2 } t.2.1 hlen'
      (by rw [show ({ t.1 with garbage_queue := t.1.garbage_queue + s.2} :
            Game B P K).config = t.1.config from rfl, hcfg]; exact hs)

/-- With an empty queue, the run panics (`none`) on the tick the spawn delay
reaches zero. -/
theorem gameSteps_spawn_none (ext : Ext B P K R) :
    ∀ (ins : List (Controller × Nat)) (g : Game B P K) (r : R) (n : Nat),
      g.state = GameState.SpawnDelay n → g.board.queue = [] → n < ins.length →
      gameSteps ext g r ins = none := by
  intro ins
  induction ins with
  | nil => intro g r n _ _ h; simp at h
  | cons s rest ih =>
    intro g r n hst hq hn
    rcases n with _ | n
    · have hupd : gameUpdate ext g s.1 r = none := by
        unfold gameUpdate
        dsimp only
        rw [hst]
        dsimp only
        have hadv : GBoard.advance_queue g.board = none := by
          unfold GBoard.advance_queue
          rw [hq]
        rw [hadv]
      unfold gameSteps
      rw [hupd]
    · have hupd : gameUpdate ext g s.1 r =
          some ({ g with prev := s.1,
                         used := (inputPhase g.config g.prev g.used s.1 g.das_delay).1,
                         das_delay := (inputPhase g.config g.prev g.used s.1 g.das_delay).2,
                         state := GameState.SpawnDelay n }, r,
                if (n + 1 == g.config.spawn_delay) = true then [Event.SpawnDelayStart]
                else []) := by
        unfold gameUpdate
        dsimp only
        rw [hst]
      unfold gameSteps
      rw [hupd]
      dsimp only
      exact ih _ r n rfl hq (by simpa using Nat.lt_of_succ_lt_succ (by simpa using hn))

/-- C10: (a) for every run from `Game::new` with `next_queue_size ≥ 1`, the
queue pop on a `SpawnDelay 0` tick never fails — `Game::new` pre-fills the
queue with `next_queue_size` pieces and every pop is immediately paired with
the push of a freshly generated piece, keeping the queue length constant;
(b) with `next_queue_size = 0`, the run panics (returns `none`) as soon as
the first spawn tick is reached. -/
theorem queue_pop_safe :
    (∀ {B2 P2 K2 R2 : Type} (ext : Ext B2 P2 K2 R2) (cfg : GameConfig) (b0 : B2)
       (r : R2) (ins : List (Controller × Nat)),
       1 ≤ cfg.next_queue_size → (gameRun ext cfg b0 r ins).isSome = true) ∧
    (∀ {B2 P2 K2 R2 : Type} (ext : Ext B2 P2 K2 R2) (cfg : GameConfig) (b0 : B2)
       (r : R2) (ins : List (Controller × Nat)),
       cfg.next_queue_size = 0 → cfg.spawn_delay < ins.length →
       gameRun ext cfg b0 r ins = none) := by
  constructor
  · intro B2 P2 K2 R2 ext cfg b0 r ins hs
    unfold gameRun
    apply gameSteps_queue_isSome ext ins
    · show (Game.new ext cfg b0 r).1.board.queue.length =
        (Game.new ext cfg b0 r).1.config.next_queue_size
      have := fillQueue_len ext cfg.next_queue_size { queue := [], stack := b0 } r
      unfold Game.new
      dsimp only
      simpa using this
    · exact hs
  · intro B2 P2 K2 R2 ext cfg b0 r ins hz hlen
    unfold gameRun
    apply gameSteps_spawn_none ext ins _ _ cfg.spawn_delay rfl ?_ hlen
    show (Game.new ext cfg b0 r).1.board.queue = []
    unfold Game.new
    dsimp only
    rw [hz]
    rfl

/-- C10 witness: `queue_pop_safe` instantiated at a one-piece queue
(`cfgL`, run succeeds) and at a zero-size queue with zero spawn delay
(`mkGravityCfg 100`, first tick panics). -/
theorem queue_pop_safe_witness :
    (gameRun countExt cfgL () () [(Controller.default, 0)]).isSome = true ∧
    gameRun countExt (mkGravityCfg 100) () () [(Controller.default, 0)] = none :=
  ⟨queue_pop_safe.1 countExt cfgL () () [(Controller.default, 0)] (by decide),
   queue_pop_safe.2 countExt (mkGravityCfg 100) () () [(Controller.default, 0)]
     (by decide) (by decide)⟩

/-- C7 witness: part (a) at a concrete fresh hard-drop press, and part (b)
via `hard_drop_edge_and_lock` at a concrete falling state with hard drop
used. -/
theorem hard_drop_edge_and_lock_witness :
    (inputPhase cfgL Controller.default Controller.default cW7 12).1.hard_drop =
      (!Controller.default.hard_drop && cW7.hard_drop) ∧
    fallingTick extL gW7 fW7 () =
      ((lockFn extL { gW7 with used := (movePhase extL gW7.board.stack gW7.used fW7).1 }
          { lowestPhase extL (movePhase extL gW7.board.stack gW7.used fW7).2.1 with
            piece := extL.sonic_drop gW7.board.stack
              (lowestPhase extL (movePhase extL gW7.board.stack gW7.used fW7).2.1).piece }
          (some (extL.piece_y
                    (lowestPhase extL (movePhase extL gW7.board.stack gW7.used fW7).2.1).piece -
                 extL.piece_y (extL.sonic_drop gW7.board.stack
                   (lowestPhase extL (movePhase extL gW7.board.stack gW7.used fW7).2.1).piece)))
          ()).1,
       (lockFn extL { gW7 with used := (movePhase extL gW7.board.stack gW7.used fW7).1 }
          { lowestPhase extL (movePhase extL gW7.board.stack gW7.used fW7).2.1 with
            piece := extL.sonic_drop gW7.board.stack
              (lowestPhase extL (movePhase extL gW7.board.stack gW7.used fW7).2.1).piece }
          (some (extL.piece_y
                    (lowestPhase extL (movePhase extL gW7.board.stack gW7.used fW7).2.1).piece -
                 extL.piece_y (extL.sonic_drop gW7.board.stack
                   (lowestPhase extL (movePhase extL gW7.board.stack gW7.used fW7).2.1).piece)))
          ()).2.1,
       (movePhase extL gW7.board.stack gW7.used fW7).2.2 ++
         (lockFn extL { gW7 with used := (movePhase extL gW7.board.stack gW7.used fW7).1 }
            { lowestPhase extL (movePhase extL gW7.board.stack gW7.used fW7).2.1 with
              piece := extL.sonic_drop gW7.board.stack
                (lowestPhase extL (movePhase extL gW7.board.stack gW7.used fW7).2.1).piece }
            (some (extL.piece_y
                      (lowestPhase extL (movePhase extL gW7.board.stack gW7.used fW7).2.1).piece -
                   extL.piece_y (extL.sonic_drop gW7.board.stack
                     (lowestPhase extL (movePhase extL gW7.board.stack gW7.used fW7).2.1).piece)))
            ()).2.2) :=
  ⟨hard_drop_edge_and_lock.1 cfgL Controller.default Controller.default cW7 12,
   hard_drop_edge_and_lock.2 extL gW7 fW7 () (by decide) (by decide) (by decide)⟩

end LibTetris
